import Mathlib

/-!
Shallow embedding of the RiX-language Pratt parser (src/parser.js).
Tokens are modelled as records, the syntax tree as a nested inductive, and
every stateful parser routine as a fuel-indexed function threading the list
of remaining tokens (the JS cursor "current" is the head of that list).
-/

set_option maxHeartbeats 1000000
set_option maxRecDepth 4000

namespace RiX

/-- Token type tags, mirroring the tokenizer contract. -/
inductive TType where
  | number
  | strT
  | identifier
  | symbol
  | placeHolder
  | semicolonSeq
  | endT
  deriving DecidableEq, Repr

/-- A token: kind tag, string value, optional subkind, placeholder index and
semicolon count.  Position and original text are dropped (diagnostics only). -/
structure Token where
  ttype : TType
  value : String := ""
  kind : Option String := none
  place : Nat := 0
  count : Nat := 0
  deriving DecidableEq, Repr

/-- Oracle result for a system identifier (systemLookup). -/
structure SysInfo where
  stype : String
  precedence : Option Nat := none
  associativity : Option String := none
  operatorType : Option String := none
  deriving DecidableEq, Repr

/-- Operator descriptor used by the Pratt loop (symbol-table rows and
converted oracle results). -/
structure SymbolInfo where
  precedence : Nat
  associativity : Option String := none
  stype : String
  deriving DecidableEq, Repr

/-- JavaScript `a || b` for optional strings: `null`/`undefined` and the
empty string are falsy. -/
def jsOrS (a b : Option String) : Option String :=
  match a with
  | some s => if s = "" then b else some s
  | none => b

/-- JavaScript `n || d` where `n` is an optional number: 0 is falsy. -/
def jsOrN (a : Option Nat) (d : Nat) : Nat :=
  match a with
  | some n => if n = 0 then d else n
  | none => d

/-- The static symbol table (SYMBOL_TABLE in parser.js). -/
def symbolTable (v : String) : Option SymbolInfo :=
  if v = ":=" ∨ v = ":=:" ∨ v = ":<:" ∨ v = ":>:" ∨ v = ":<=:" ∨ v = ":>=:" ∨
     v = ":=>" ∨ v = "=>" ∨ v = ":->" then
    some ⟨10, some "right", "infix"⟩
  else if v = "|>" ∨ v = "||>" ∨ v = "|>>" ∨ v = "|>:" ∨ v = "|>?" ∨ v = "|+" ∨
          v = "|*" ∨ v = "|:" ∨ v = "|;" ∨ v = "|^" ∨ v = "|?" then
    some ⟨20, some "left", "infix"⟩
  else if v = "=" ∨ v = "?=" ∨ v = "!=" ∨ v = "==" then
    some ⟨50, some "left", "infix"⟩
  else if v = "<" ∨ v = ">" ∨ v = "<=" ∨ v = ">=" ∨ v = "?<" ∨ v = "?>" ∨
          v = "?<=" ∨ v = "?>=" then
    some ⟨60, some "left", "infix"⟩
  else if v = ":" then some ⟨70, some "left", "infix"⟩
  else if v = "+" ∨ v = "-" then some ⟨80, some "left", "infix"⟩
  else if v = "*" ∨ v = "/" ∨ v = "//" ∨ v = "%" ∨ v = "/^" ∨ v = "/~" ∨ v = "/%" then
    some ⟨90, some "left", "infix"⟩
  else if v = "^" ∨ v = "**" then some ⟨100, some "right", "infix"⟩
  else if v = "->" then some ⟨25, some "right", "infix"⟩
  else if v = "?" then some ⟨45, some "left", "infix"⟩
  else if v = "." then some ⟨130, some "left", "infix"⟩
  else if v = "'" then some ⟨115, some "left", "calculus"⟩
  else if v = "(" ∨ v = ")" then some ⟨0, none, "grouping"⟩
  else if v = "[" then some ⟨120, none, "postfix"⟩
  else if v = "]" ∨ v = "\x7b" ∨ v = "\x7d" then some ⟨0, none, "grouping"⟩
  else if v = "\x7b\x7b" ∨ v = "\x7d\x7d" then some ⟨0, none, "codeblock"⟩
  else if v = "," then some ⟨5, some "left", "infix"⟩
  else if v = ";" then some ⟨0, some "left", "statement"⟩
  else none

/-- The system-symbol oracle supplied by the host. -/
abbrev Lookup := String → SysInfo

/-- getSymbolInfo: symbol-table lookup, semicolon-sequence separator,
oracle conversion for system identifiers, operand fallback. -/
def getSymbolInfo (L : Lookup) (t : Token) : SymbolInfo :=
  if t.ttype = TType.symbol then
    (symbolTable t.value).getD ⟨0, none, "unknown"⟩
  else if t.ttype = TType.semicolonSeq then ⟨0, none, "separator"⟩
  else if t.ttype = TType.identifier ∧ t.kind = some "System" then
    let si := L t.value
    if si.stype = "operator" then
      ⟨jsOrN si.precedence 90,
       some ((jsOrS si.associativity (some "left")).getD "left"),
       (jsOrS si.operatorType (some "infix")).getD "infix"⟩
    else ⟨0, none, "operand"⟩
  else ⟨0, none, "operand"⟩

/-- The synthesised End sentinel. -/
def endTok : Token := { ttype := TType.endT }

/-- The parser cursor: head of the remaining token list, End when exhausted. -/
def cur (ts : List Token) : Token := ts.headD endTok

/-- advance(): drop the current token. -/
def adv (ts : List Token) : List Token := ts.drop 1

mutual

/-- Syntax-tree nodes (pos/original dropped; they are diagnostics only). -/
inductive Node where
  | number (value : String)
  | str (value : String) (kind : Option String)
  | userIdentifier (name : String)
  | systemIdentifier (name : String) (systemInfo : SysInfo)
  | placeHolder (place : Nat)
  | nullN
  | unaryOperation (operator : String) (operand : Node)
  | binaryOperation (operator : String) (left right : Node)
  | grouping (expression : Node)
  | tuple (elements : List Node)
  | arrayN (elements : List Node)
  | setN (elements : List Node)
  | mapN (elements : List Node)
  | system (elements : List Node)
  | matrix (rows : List (List Node))
  | tensor (structureL : List TEntry) (maxDimension : Nat)
  | withMetadata (primary : Node) (metadata : List (String × Node))
  | codeBlock (statements : List Node)
  | functionCall (function : Node) (arguments : CallArgs)
  | functionDefinition (name : Node) (parameters : Params) (body : Node)
  | functionLambda (parameters : Params) (body : Node)
  | patternMatchingFunction (name : Node) (parameters : Params)
      (patterns : List Pattern) (metadata : List (String × Node))
  | parameterList (parameters : Params)
  | pipe (left right : Node)
  | explicitPipe (left right : Node)
  | mapOp (left right : Node)
  | filterOp (left right : Node)
  | reduceOp (left right : Node)
  | propertyAccess (object property : Node)
  | derivative (function : Node) (order : Nat) (vars : Option (List String))
      (evaluation : Option (List Node)) (operations : Option (List Node))
  | integral (function : Node) (order : Nat) (vars : Option (List String))
      (evaluation : Option (List Node)) (operations : Option (List Node))
  | embeddedLanguage (language : Option String) (context : Option String) (body : String)
  | statement (expression : Node)
  | comment (value : String) (kind : Option String)

/-- One row of a Tensor structure entry: the row and its separator level. -/
inductive TEntry where
  | mk (row : List Node) (separatorLevel : Nat)

/-- A formal parameter: optional name (JS may leave it undefined) and
optional default value. -/
inductive Param where
  | mk (name : Option String) (defaultValue : Option Node)

/-- A parameter specification (positional, keyword, conditionals, metadata). -/
inductive Params where
  | mk (positional keyword : List Param) (conditionals : List Node)
      (metadata : List (String × Node))

/-- Function-call arguments: positional list and keyword map (assoc list,
insertion order preserved, later inserts overwrite in place like a JS object). -/
inductive CallArgs where
  | mk (positional : List Node) (keyword : List (String × Node))

/-- One pattern of a PatternMatchingFunction. -/
inductive Pattern where
  | mk (parameters : Params) (body : Node)

end


def TEntry.row : TEntry → List Node
  | .mk r _ => r

def TEntry.separatorLevel : TEntry → Nat
  | .mk _ l => l

def Param.name : Param → Option String
  | .mk n _ => n

def Param.defaultValue : Param → Option Node
  | .mk _ d => d

def Params.positional : Params → List Param
  | .mk p _ _ _ => p

def Params.keyword : Params → List Param
  | .mk _ k _ _ => k

def Params.conditionals : Params → List Node
  | .mk _ _ c _ => c

def Params.metadata : Params → List (String × Node)
  | .mk _ _ _ m => m

def CallArgs.positional : CallArgs → List Node
  | .mk p _ => p

def CallArgs.keyword : CallArgs → List (String × Node)
  | .mk _ k => k

def Pattern.parameters : Pattern → Params
  | .mk p _ => p

def Pattern.body : Pattern → Node
  | .mk _ b => b

/-- The empty parameter specification. -/
def emptyParams : Params := .mk [] [] [] []

/-- JS object insertion: overwrite in place when the key exists, else append. -/
def insertKV (l : List (String × Node)) (k : String) (v : Node) : List (String × Node) :=
  if l.any (fun p => p.1 = k) then
    l.map (fun p => if p.1 = k then (k, v) else p)
  else l ++ [(k, v)]

/-- The `name` field of a node, when present (identifiers). -/
def nameField : Node → Option String
  | .userIdentifier n => some n
  | .systemIdentifier n _ => some n
  | _ => none

/-- The `value` field of a node, when present (numbers, strings). -/
def valueField : Node → Option String
  | .number v => some v
  | .str v _ => some v
  | _ => none

/-- JS `node.name || node.value` used when extracting a parameter name. -/
def nameOrValue (n : Node) : Option String := jsOrS (nameField n) (valueField n)

/-- parseParameterFromArg: reinterpret one positional call argument as a
parameter, splitting off a `?` condition (parser.js lines 1520-1550). -/
def parseParameterFromArg (arg : Node) : Param × Option Node :=
  match arg with
  | .binaryOperation ":=" l r =>
    match r with
    | .binaryOperation "?" v c => (.mk (nameOrValue l) (some v), some c)
    | _ => (.mk (nameOrValue l) (some r), none)
  | .binaryOperation "?" l c => (.mk (nameOrValue l) none, some c)
  | .userIdentifier n => (.mk (nameOrValue (.userIdentifier n)) none, none)
  | _ => (.mk none none, none)

/-- One positional argument of convertArgsToParams (lines 1366-1373). -/
def convertPosStep (acc : List Param × List Node) (arg : Node) : List Param × List Node :=
  let (p, c) := parseParameterFromArg arg
  (acc.1 ++ [p], match c with | some cond => acc.2 ++ [cond] | none => acc.2)

/-- One keyword argument of convertArgsToParams (lines 1376-1393): a `?`
value splits into default and condition. -/
def convertKwStep (acc : List Param × List Node) (kv : String × Node) : List Param × List Node :=
  match kv.2 with
  | .binaryOperation "?" v c => (acc.1 ++ [.mk (some kv.1) (some v)], acc.2 ++ [c])
  | v => (acc.1 ++ [.mk (some kv.1) (some v)], acc.2)

/-- convertArgsToParams: reinterpret call-site arguments as a parameter
specification (parser.js lines 1356-1406).  The legacy plain-array branch is
unreachable here because every call site passes the record form. -/
def convertArgsToParams (args : CallArgs) : Params :=
  let (pos, conds) := args.positional.foldl convertPosStep ([], [])
  let (kw, conds') := args.keyword.foldl convertKwStep ([], conds)
  .mk pos kw conds' []

/-- The positional parameters a Tuple left operand contributes to a `->`
lambda (lines 478-482): UserIdentifier elements only, others skipped. -/
def tupleParams (es : List Node) : List Param :=
  es.filterMap fun el =>
    match el with
    | .userIdentifier n => some (Param.mk (some n) none)
    | _ => none

/-- The `->` lowering performed by parseInfix (parser.js lines 442-499):
Grouping and Tuple left operands become FunctionLambda, everything else a
plain BinaryOperation. -/
def lowerArrow (left right : Node) : Node :=
  match left with
  | .grouping e =>
    match e with
    | .parameterList ps => .functionLambda ps right
    | .userIdentifier n => .functionLambda (.mk [.mk (some n) none] [] [] []) right
    | .binaryOperation "?" l c =>
      .functionLambda (.mk [.mk (nameOrValue l) none] [] [c] []) right
    | _ => .functionLambda emptyParams right
  | .tuple es => .functionLambda (.mk (tupleParams es) [] [] []) right
  | _ => .binaryOperation "->" left right

/-- Parameter extraction for a legacy `BinaryOperation('->')` pattern entry
in `:=>` lowering (parser.js lines 405-428). -/
def legacyParams (l : Node) : Params :=
  match l with
  | .grouping e =>
    match e with
    | .binaryOperation "?" pl c => .mk [.mk (nameOrValue pl) none] [] [c] []
    | .userIdentifier n => .mk [.mk (nameOrValue (.userIdentifier n)) none] [] [] []
    | _ => emptyParams
  | _ => emptyParams

/-- One `:=>` pattern entry: lambda-shaped nodes produce a pattern, anything
else is skipped (parser.js lines 397-432). -/
def toPattern (n : Node) : Option Pattern :=
  match n with
  | .functionLambda ps b => some (.mk ps b)
  | .binaryOperation "->" l r => some (.mk (legacyParams l) r)
  | _ => none

/-- Select the raw pattern list and global metadata from the right operand of
`:=>` (parser.js lines 379-394). -/
def selectRaw (right : Node) : List Node × List (String × Node) :=
  match right with
  | .arrayN es => (es, [])
  | .withMetadata (.arrayN es) md =>
    (match es with
     | .arrayN inner :: _ => inner
     | _ => es, md)
  | other => ([other], [])

/-- The pattern list produced by `:=>` lowering for a given right operand. -/
def lowerPatterns (right : Node) : List Pattern :=
  (selectRaw right).1.filterMap toPattern

/-- The whole `:=>` lowering: name/parameters from the left operand, patterns
and metadata from the right (parser.js lines 364-441). -/
def lowerPatternMatch (left right : Node) : Node :=
  let (fn, params) :=
    match left with
    | .functionCall f args => (f, convertArgsToParams args)
    | _ => (left, emptyParams)
  .patternMatchingFunction fn params (lowerPatterns right) (selectRaw right).2

/-- The `:->` lowering: FunctionDefinition, converting call arguments to
parameters when the left operand is a FunctionCall (parser.js lines 343-363). -/
def lowerFunctionDefinition (left right : Node) : Node :=
  match left with
  | .functionCall f args => .functionDefinition f (convertArgsToParams args) right
  | _ => .functionDefinition left (.mk [] [] [] []) right

/-- The right-operand precedence: one more than the operator's for
left-associative operators (lines 324-327). -/
def rightPrecOf (info : SymbolInfo) : Nat :=
  info.precedence + (if info.associativity = some "left" then 1 else 0)

/-- Node construction for the operator branches of parseInfix (lines
343-556) other than function call and `[` access: each of those JS branches
first parses the right operand at the same rightPrec and differs only in
the node it builds, so the dispatch is factored out here. -/
def mkInfixNode (opv : String) (left right : Node) : Node :=
  if opv = ":->" then lowerFunctionDefinition left right
  else if opv = ":=>" then lowerPatternMatch left right
  else if opv = "->" then lowerArrow left right
  else if opv = "|>" then .pipe left right
  else if opv = "||>" then .explicitPipe left right
  else if opv = "|>>" then .mapOp left right
  else if opv = "|>?" then .filterOp left right
  else if opv = "|>:" then .reduceOp left right
  else .binaryOperation opv left right

/-! ## Embedded-language header micro-parser (parser.js lines 1408-1518) -/

/-- Whitespace for the JS `trim()` model. -/
def isWs (c : Char) : Bool := c = ' ' ∨ c = '\t' ∨ c = '\n' ∨ c = '\r'

/-- JS `String.prototype.trim`. -/
def jsTrim (cs : List Char) : List Char :=
  ((cs.dropWhile isWs).reverse.dropWhile isWs).reverse

/-- JS `String.prototype.slice(a, b)` on character lists. -/
def listSlice (cs : List Char) (a b : Nat) : List Char := (cs.drop a).take (b - a)

/-- JS `lastIndexOf`. -/
def lastIdx? (cs : List Char) (c : Char) : Option Nat :=
  match cs.reverse.findIdx? (· = c) with
  | some k => some (cs.length - 1 - k)
  | none => none

/-- The balanced-parenthesis scan: walk from index `i` with a running count,
returning the index where the count returns to zero on a `)`. -/
def parenMatchAux : List Char → Nat → Int → Option Nat
  | [], _, _ => none
  | c :: rest, i, count =>
    if c = '(' then parenMatchAux rest (i + 1) (count + 1)
    else if c = ')' then
      if count - 1 = 0 then some i else parenMatchAux rest (i + 1) (count - 1)
    else parenMatchAux rest (i + 1) count

/-- Index of the `)` matching the `(` at index `start` (JS loops at lines
1433-1443 and 1481-1491). -/
def parenMatchIdx (cs : List Char) (start : Nat) : Option Nat :=
  parenMatchAux (cs.drop start) start 0

/-- The colon chosen via the first `(` and its matching `)` (lines 1428-1453):
`none` when there is no `(`, no matching `)`, or no `:` after it. -/
def headerColonFromParens (content : List Char) : Option Nat :=
  match content.findIdx? (· = '(') with
  | none => none
  | some ps =>
    match parenMatchIdx content ps with
    | none => none
    | some pe =>
      match (content.drop (pe + 1)).findIdx? (· = ':') with
      | some k => some (pe + 1 + k)
      | none => none

/-- The header colon index (lines 1428-1458); the `getD 0` default is
unreachable because the caller guarantees the content contains a `:`. -/
def headerColonIdx (content : List Char) : Nat :=
  match headerColonFromParens content with
  | some i => i
  | none => (content.findIdx? (· = ':')).getD 0

/-- JS `s || null`: the empty string becomes null. -/
def strOpt (cs : List Char) : Option String :=
  if cs.isEmpty then none else some (String.mk cs)

/-- Parse the (already trimmed) header into language and context
(lines 1463-1510). -/
def parseHeader (header : List Char) : Except String (Option String × Option String) :=
  let hps := header.findIdx? (· = '(')
  let hpe := lastIdx? header ')'
  if hpe.isSome ∧ hps.isNone then
    .error "Unmatched closing parenthesis in embedded language header"
  else
    match hps with
    | none => .ok (strOpt header, none)
    | some ps =>
      match parenMatchIdx header ps with
      | none => .error "Unmatched opening parenthesis in embedded language header"
      | some pe =>
        if pe ≠ header.length - 1 then
          .error "Invalid embedded language header format. Expected: LANGUAGE(CONTEXT):BODY"
        else if (header.drop (pe + 1)).contains '(' then
          .error "Multiple parenthetical groups not allowed in embedded language header"
        else
          .ok (strOpt (jsTrim (header.take ps)),
               some (String.mk (jsTrim (listSlice header (ps + 1) pe))))

/-- parseEmbeddedLanguage on the backtick-string content
(parser.js lines 1408-1518). -/
def parseEmbeddedLanguage (content : List Char) : Except String Node :=
  if content.head? = some ':' ∨ (content.findIdx? (· = ':')).isNone then
    .ok (.embeddedLanguage (some "RiX-String") none
      (String.mk (if content.head? = some ':' then content.drop 1 else content)))
  else
    let ci := headerColonIdx content
    let header := jsTrim (content.take ci)
    let body := String.mk (content.drop (ci + 1))
    match parseHeader header with
    | .error e => .error e
    | .ok (lang, ctx) => .ok (.embeddedLanguage lang ctx body)

example :
    parseEmbeddedLanguage "JS(a, b: string, c): a + b".toList =
      .ok (.embeddedLanguage (some "JS") (some "a, b: string, c") " a + b") := by
  rfl

example :
    parseEmbeddedLanguage "P(x):x^2 + 3x + 5".toList =
      .ok (.embeddedLanguage (some "P") (some "x") "x^2 + 3x + 5") := by
  rfl

example :
    parseEmbeddedLanguage ":starts with colon".toList =
      .ok (.embeddedLanguage (some "RiX-String") none "starts with colon") := by
  rfl

/-! ## Pure helpers for the bracket disambiguators -/

/-- JS token-type names as used in error messages. -/
def ttypeName : TType → String
  | .number => "Number"
  | .strT => "String"
  | .identifier => "Identifier"
  | .symbol => "Symbol"
  | .placeHolder => "PlaceHolder"
  | .semicolonSeq => "SemicolonSequence"
  | .endT => "End"

/-- Nodes that trigger the identifier-followed-by-`(` call fast path. -/
def isIdentNode : Node → Bool
  | .userIdentifier _ => true
  | .systemIdentifier _ _ => true
  | _ => false

/-- Nodes after which a `'` token is a postfix derivative. -/
def isDerivTarget : Node → Bool
  | .userIdentifier _ => true
  | .systemIdentifier _ _ => true
  | .functionCall _ _ => true
  | .propertyAccess _ _ => true
  | .derivative _ _ _ _ _ => true
  | .integral _ _ _ _ _ => true
  | _ => false

/-- consumeSemicolonSequence (parser.js lines 833-845). -/
def consumeSemis (ts : List Token) : Nat × List Token :=
  if (cur ts).ttype = TType.semicolonSeq then ((cur ts).count, adv ts)
  else if (cur ts).value = ";" then (1, adv ts)
  else (0, ts)

/-- Collect a run of `'` tokens (the quote-collection loops in
parseDerivative / parseIntegral). -/
def countQuotes : List Token → Nat × List Token
  | [] => (0, [])
  | t :: rest =>
    if t.value = "'" then
      let (n, ts) := countQuotes rest
      (n + 1, ts)
    else (0, t :: rest)

/-- The look-ahead scan of parseGrouping (lines 574-596): starting from the
token after the first content token, track only parenthesis depth, report a
depth-zero `;` (stop) or depth-zero `,` (keep scanning), stop at the
matching `)`. -/
def scanGroup : List Token → Nat → Bool → Bool × Bool
  | [], _, hasComma => (false, hasComma)
  | t :: rest, depth, hasComma =>
    if t.value = "(" then scanGroup rest (depth + 1) hasComma
    else if t.value = ")" then
      if depth = 0 then (false, hasComma) else scanGroup rest (depth - 1) hasComma
    else if depth = 0 ∧ t.value = ";" then (true, hasComma)
    else if depth = 0 ∧ t.value = "," then scanGroup rest depth true
    else scanGroup rest depth hasComma

/-- Metadata key extraction for `key := value` array elements
(lines 719-728): identifier name or string value. -/
def metaKey : Node → Option String
  | .userIdentifier n => some n
  | .systemIdentifier n _ => some n
  | .str v _ => some v
  | _ => none

/-- Mutable state of the parseMatrixOrArray do-while loop (lines 686-693). -/
structure ArrSt where
  elements : List Node := []
  hasMetadata : Bool := false
  primaryElement : Option Node := none
  metadataMap : List (String × Node) := []
  nonMetadataCount : Nat := 0
  hasSemicolons : Bool := false
  struct : List TEntry := []
  currentRow : List Node := []

/-- Processing of one parsed array element (lines 713-741): a `:=` binary
operation is metadata (clashing with semicolons or a bad key errors),
anything else is a regular element (clashing with earlier metadata errors). -/
def arrHandleElement (st : ArrSt) (element : Node) : Except String ArrSt :=
  match element with
  | .binaryOperation ":=" l r =>
    if st.hasSemicolons then
      .error "Cannot mix matrix/tensor syntax with metadata - use nested array syntax"
    else
      match metaKey l with
      | some k =>
        .ok { st with hasMetadata := true, metadataMap := insertKV st.metadataMap k r }
      | none => .error "Metadata key must be an identifier or string"
  | _ =>
    let cnt := st.nonMetadataCount + 1
    if st.hasMetadata then
      .error "Cannot mix array elements with metadata - use nested array syntax like [[1,2,3], key := value]"
    else
      .ok { st with
        nonMetadataCount := cnt,
        primaryElement := if cnt = 1 then some element else st.primaryElement,
        elements := st.elements ++ [element],
        currentRow := st.currentRow ++ [element] }

/-- The final-row push after the loop (lines 765-771). -/
def arrFinish (st : ArrSt) : ArrSt :=
  if st.currentRow.length > 0 ∨ st.hasSemicolons then
    { st with struct := st.struct ++ [.mk st.currentRow 0] }
  else st

/-- Maximum separator level of a structure (Math.max over the entries). -/
def maxSep (struct : List TEntry) : Nat :=
  (struct.map TEntry.separatorLevel).foldr max 0

/-- buildMatrixTensor (lines 805-831). -/
def buildMatrixTensor (struct : List TEntry) : Node :=
  if maxSep struct = 1 then .matrix (struct.map TEntry.row)
  else .tensor struct (maxSep struct + 1)

/-- Classification after the array loop (lines 773-802). -/
def finishArrayCore (st : ArrSt) : Except String Node :=
  if st.hasMetadata ∧ st.nonMetadataCount > 1 then
    .error "Cannot mix array elements with metadata - use nested array syntax like [[1,2,3], key := value]"
  else if st.hasMetadata then
    .ok (.withMetadata (st.primaryElement.getD (.arrayN [])) st.metadataMap)
  else if st.hasSemicolons then .ok (buildMatrixTensor st.struct)
  else .ok (.arrayN st.elements)

/-- Does a brace element count as an equation (`:=:` family)? -/
def isEqB : Node → Bool
  | .binaryOperation op _ _ =>
    op = ":=:" ∨ op = ":>:" ∨ op = ":<:" ∨ op = ":<=:" ∨ op = ":>=:"
  | _ => false

/-- Does a brace element count as a `:=` assignment? -/
def isAssignB : Node → Bool
  | .binaryOperation op _ _ => op = ":="
  | _ => false

/-- Per-element flag update in parseBraceContainer (lines 863-875):
pattern-matching functions error immediately, `:=` sets hasAssignments,
equation operators set hasEquations. -/
def braceStep (element : Node) (hA hE : Bool) : Except String (Bool × Bool) :=
  match element with
  | .patternMatchingFunction _ _ _ _ =>
    .error "Pattern matching should use array syntax [ ] with sequential evaluation, not brace syntax { }. Use format: name :=> [ pattern1, pattern2, ... ]"
  | .binaryOperation op _ _ =>
    if op = ":=" then .ok (true, hE)
    else if op = ":=:" ∨ op = ":>:" ∨ op = ":<:" ∨ op = ":<=:" ∨ op = ":>=:" then
      .ok (hA, true)
    else .ok (hA, hE)
  | _ => .ok (hA, hE)

/-- Container classification after the brace loop (lines 893-923). -/
def braceClassify (elems : List Node) (hA hE hS : Bool) : Except String Node :=
  if hE then
    if ¬hS then
      .error "System containers must contain only equations with equation operators separated by semicolons"
    else if hA then .error "Cannot mix equations with other assignment types"
    else if elems.all isEqB then .ok (.system elems)
    else .error "System containers must contain only equations with equation operators"
  else if hA then
    if elems.all isAssignB then .ok (.mapN elems)
    else .error "Map containers must contain only key-value pairs with :="
  else .ok (.setN elems)

mutual

/-- containsCalculusOperations (lines 1177-1201): calculus nodes, a quote in
a user identifier name, or a calculus operation reachable through the
`left`/`right`/`function`/`elements` fields. -/
def containsCalc : Node → Bool
  | .derivative _ _ _ _ _ => true
  | .integral _ _ _ _ _ => true
  | .userIdentifier n => n.contains '\''
  | .binaryOperation _ l r => containsCalc l || containsCalc r
  | .pipe l r => containsCalc l || containsCalc r
  | .explicitPipe l r => containsCalc l || containsCalc r
  | .mapOp l r => containsCalc l || containsCalc r
  | .filterOp l r => containsCalc l || containsCalc r
  | .reduceOp l r => containsCalc l || containsCalc r
  | .functionCall f _ => containsCalc f
  | .tuple es => containsCalcL es
  | .arrayN es => containsCalcL es
  | .setN es => containsCalcL es
  | .mapN es => containsCalcL es
  | .system es => containsCalcL es
  | _ => false

/-- containsCalculusOperations over an `elements` list. -/
def containsCalcL : List Node → Bool
  | [] => false
  | e :: es => containsCalc e || containsCalcL es

end

/-- Fuel-exhaustion message (the JS parser needs no fuel; every loop
advances, so any real parse succeeds for a large enough budget). -/
def fuelMsg : String := "out of fuel"

mutual

/-- parseExpression (lines 179-223): prefix then the Pratt infix loop. -/
def parseExpression : Nat → Lookup → Nat → List Token →
    Except String (Node × List Token)
  | 0, _, _, _ => .error fuelMsg
  | fuel + 1, L, minPrec, ts =>
    match parsePrefix fuel L ts with
    | .error e => .error e
    | .ok (left, ts₁) => parseInfixLoop fuel L minPrec left ts₁

/-- The while-loop of parseExpression (lines 182-220): terminators, the two
fast paths, precedence test, then one infix step. -/
def parseInfixLoop : Nat → Lookup → Nat → Node → List Token →
    Except String (Node × List Token)
  | 0, _, _, _, _ => .error fuelMsg
  | fuel + 1, L, minPrec, left, ts =>
    let c := cur ts
    if c.ttype = TType.endT then .ok (left, ts)
    else if c.value = ";" ∨ c.value = "," ∨ c.value = ")" ∨ c.value = "]" ∨
            c.value = "\x7d" ∨ c.value = "\x7d\x7d" ∨ c.ttype = TType.semicolonSeq then
      .ok (left, ts)
    else if c.ttype = TType.strT ∧ c.kind = some "comment" then .ok (left, ts)
    else if c.value = "(" ∧ isIdentNode left then
      match parseInfix fuel L left ⟨120, none, "postfix"⟩ ts with
      | .error e => .error e
      | .ok (left', ts') => parseInfixLoop fuel L minPrec left' ts'
    else if c.value = "'" ∧ isDerivTarget left then
      match parseDerivative fuel L left ts with
      | .error e => .error e
      | .ok (left', ts') => parseInfixLoop fuel L minPrec left' ts'
    else
      let info := getSymbolInfo L c
      if info.precedence < minPrec then .ok (left, ts)
      else if info.stype = "statement" ∨ info.stype = "separator" then .ok (left, ts)
      else
        match parseInfix fuel L left info ts with
        | .error e => .error e
        | .ok (left', ts') => parseInfixLoop fuel L minPrec left' ts'

/-- parsePrefix (lines 226-300). -/
def parsePrefix : Nat → Lookup → List Token → Except String (Node × List Token)
  | 0, _, _ => .error fuelMsg
  | fuel + 1, L, ts =>
    let t := cur ts
    match t.ttype with
    | .number => .ok (.number t.value, adv ts)
    | .strT =>
      if t.kind = some "backtick" then
        match parseEmbeddedLanguage t.value.toList with
        | .error e => .error e
        | .ok n => .ok (n, adv ts)
      else .ok (.str t.value t.kind, adv ts)
    | .identifier =>
      if t.kind = some "System" then .ok (.systemIdentifier t.value (L t.value), adv ts)
      else .ok (.userIdentifier t.value, adv ts)
    | .placeHolder => .ok (.placeHolder t.place, adv ts)
    | .symbol =>
      if t.value = "(" then parseGrouping fuel L ts
      else if t.value = "[" then parseArray fuel L ts
      else if t.value = "\x7b" then parseBraceContainer fuel L ts
      else if t.value = "\x7b\x7b" then parseCodeBlock fuel L ts
      else if t.value = "+" ∨ t.value = "-" then parseUnaryOperator fuel L ts
      else if t.value = "'" then parseIntegral fuel L ts
      else if t.value = "_" then .ok (.nullN, adv ts)
      else .error ("Unexpected symbol: " ++ t.value)
    | .semicolonSeq => .error ("Unexpected token: " ++ ttypeName t.ttype)
    | .endT => .error ("Unexpected token: " ++ ttypeName t.ttype)

/-- parseInfix (lines 303-557): function call, property access, the three
arrows, the named pipes, generic binary operation. -/
def parseInfix : Nat → Lookup → Node → SymbolInfo → List Token →
    Except String (Node × List Token)
  | 0, _, _, _, _ => .error fuelMsg
  | fuel + 1, L, left, info, ts =>
    let op := cur ts
    if op.value = "(" ∧ isIdentNode left then
      match parseFunctionCallArgs fuel L (adv ts) with
      | .error e => .error e
      | .ok (args, ts₂) =>
        if (cur ts₂).value ≠ ")" then
          .error "Expected closing parenthesis in function call"
        else .ok (.functionCall left args, adv ts₂)
    else
      let ts₁ := adv ts
      if op.value = "[" ∧ info.stype = "postfix" then
        match parseExpression fuel L 0 ts₁ with
        | .error e => .error e
        | .ok (r, ts₂) =>
          if (cur ts₂).value ≠ "]" then .error "Expected closing bracket"
          else .ok (.propertyAccess left r, adv ts₂)
      else
        match parseExpression fuel L (rightPrecOf info) ts₁ with
        | .error e => .error e
        | .ok (r, ts₂) => .ok (mkInfixNode op.value left r, ts₂)

/-- parseGrouping (lines 559-635): empty-tuple check, look-ahead scan, then
parameter list / tuple / grouped-expression parse and the `)` check. -/
def parseGrouping : Nat → Lookup → List Token → Except String (Node × List Token)
  | 0, _, _ => .error fuelMsg
  | fuel + 1, L, ts =>
    let ts₁ := adv ts
    if (cur ts₁).value = ")" then .ok (.tuple [], adv ts₁)
    else
      let flags := scanGroup (adv ts₁) 0 false
      let parsed : Except String (Node × List Token) :=
        if flags.1 then
          match parseFunctionParameters fuel L ts₁ with
          | .error e => .error e
          | .ok (ps, ts₂) => .ok (.grouping (.parameterList ps), ts₂)
        else if flags.2 then
          match parseTupleElements fuel L ts₁ with
          | .error e => .error e
          | .ok (es, ts₂) => .ok (.tuple es, ts₂)
        else
          match parseExpression fuel L 0 ts₁ with
          | .error e => .error e
          | .ok (e, ts₂) => .ok (.grouping e, ts₂)
      match parsed with
      | .error e => .error e
      | .ok (n, ts₂) =>
        if (cur ts₂).value ≠ ")" then .error "Expected closing parenthesis"
        else .ok (n, adv ts₂)

/-- parseTupleElements (lines 637-663): first element, then comma loop. -/
def parseTupleElements : Nat → Lookup → List Token →
    Except String (List Node × List Token)
  | 0, _, _ => .error fuelMsg
  | fuel + 1, L, ts =>
    match parseExpression fuel L 0 ts with
    | .error e => .error e
    | .ok (e, ts₁) => tupleLoop fuel L [e] ts₁

/-- The comma loop of parseTupleElements: consecutive commas error, a
trailing comma before `)` adds nothing. -/
def tupleLoop : Nat → Lookup → List Node → List Token →
    Except String (List Node × List Token)
  | 0, _, _, _ => .error fuelMsg
  | fuel + 1, L, acc, ts =>
    if (cur ts).value = "," then
      let ts₁ := adv ts
      if (cur ts₁).value = "," then .error "Consecutive commas not allowed in tuples"
      else if (cur ts₁).value = ")" then .ok (acc, ts₁)
      else
        match parseExpression fuel L 0 ts₁ with
        | .error e => .error e
        | .ok (e, ts₂) => tupleLoop fuel L (acc ++ [e]) ts₂
    else .ok (acc, ts)

/-- parseArray (lines 670-683). -/
def parseArray : Nat → Lookup → List Token → Except String (Node × List Token)
  | 0, _, _ => .error fuelMsg
  | fuel + 1, L, ts =>
    match parseMatrixOrArray fuel L (adv ts) with
    | .error e => .error e
    | .ok (n, ts₂) =>
      if (cur ts₂).value ≠ "]" then .error "Expected closing bracket"
      else .ok (n, adv ts₂)

/-- parseMatrixOrArray (lines 685-803): run the element loop (when the
bracket is not immediately closed), push the final row, classify. -/
def parseMatrixOrArray : Nat → Lookup → List Token →
    Except String (Node × List Token)
  | 0, _, _ => .error fuelMsg
  | fuel + 1, L, ts =>
    match arrLoopTop fuel L ts with
    | .error e => .error e
    | .ok (st, ts₁) =>
      match finishArrayCore (arrFinish st) with
      | .error e => .error e
      | .ok n => .ok (n, ts₁)

/-- The guarded entry to the element loop (line 695): the loop body runs only
when the bracket is not immediately closed. -/
def arrLoopTop : Nat → Lookup → List Token → Except String (ArrSt × List Token)
  | 0, _, _ => .error fuelMsg
  | fuel + 1, L, ts =>
    if (cur ts).value ≠ "]" then arrLoop fuel L {} ts else .ok ({}, ts)

/-- One iteration of the parseMatrixOrArray do-while body plus the loop
condition (lines 696-762). -/
def arrLoop : Nat → Lookup → ArrSt → List Token →
    Except String (ArrSt × List Token)
  | 0, _, _, _ => .error fuelMsg
  | fuel + 1, L, st, ts =>
    if (cur ts).value = ";" ∨ (cur ts).ttype = TType.semicolonSeq then
      let (c, ts₁) := consumeSemis ts
      let st₁ := { st with hasSemicolons := true, struct := st.struct ++ [.mk [] c] }
      if (cur ts₁).value ≠ "]" ∧ (cur ts₁).ttype ≠ TType.endT then
        arrLoop fuel L st₁ ts₁
      else .ok (st₁, ts₁)
    else
      match parseExpression fuel L 0 ts with
      | .error e => .error e
      | .ok (element, ts₁) =>
        match arrHandleElement st element with
        | .error e => .error e
        | .ok st₁ =>
          if (cur ts₁).value = "," then
            let ts₂ := adv ts₁
            if (cur ts₂).value ≠ "]" ∧ (cur ts₂).ttype ≠ TType.endT then
              arrLoop fuel L st₁ ts₂
            else .ok (st₁, ts₂)
          else if (cur ts₁).value = ";" ∨ (cur ts₁).ttype = TType.semicolonSeq then
            if st₁.hasMetadata then
              .error "Cannot mix matrix/tensor syntax with metadata"
            else
              let (c, ts₂) := consumeSemis ts₁
              let st₂ := { st₁ with
                hasSemicolons := true
                struct := st₁.struct ++ [.mk st₁.currentRow c]
                currentRow := [] }
              if (cur ts₂).value ≠ "]" ∧ (cur ts₂).ttype ≠ TType.endT then
                arrLoop fuel L st₂ ts₂
              else .ok (st₂, ts₂)
          else .ok (st₁, ts₁)

/-- parseBraceContainer (lines 847-930). -/
def parseBraceContainer : Nat → Lookup → List Token →
    Except String (Node × List Token)
  | 0, _, _ => .error fuelMsg
  | fuel + 1, L, ts =>
    match braceLoopTop fuel L (adv ts) with
    | .error e => .error e
    | .ok ((elems, hA, hE, hS), ts₂) =>
      if (cur ts₂).value ≠ "\x7d" then .error "Expected closing brace"
      else
        match braceClassify elems hA hE hS with
        | .error e => .error e
        | .ok n => .ok (n, adv ts₂)

/-- The guarded entry to the brace element loop (line 858). -/
def braceLoopTop : Nat → Lookup → List Token →
    Except String ((List Node × Bool × Bool × Bool) × List Token)
  | 0, _, _ => .error fuelMsg
  | fuel + 1, L, ts =>
    if (cur ts).value ≠ "\x7d" then braceLoop fuel L [] false false false ts
    else .ok (([], false, false, false), ts)

/-- One iteration of the parseBraceContainer do-while body plus the loop
condition (lines 859-885). -/
def braceLoop : Nat → Lookup → List Node → Bool → Bool → Bool → List Token →
    Except String ((List Node × Bool × Bool × Bool) × List Token)
  | 0, _, _, _, _, _, _ => .error fuelMsg
  | fuel + 1, L, acc, hA, hE, hS, ts =>
    match parseExpression fuel L 0 ts with
    | .error e => .error e
    | .ok (element, ts₁) =>
      let acc₁ := acc ++ [element]
      match braceStep element hA hE with
      | .error e => .error e
      | .ok (hA₁, hE₁) =>
        if (cur ts₁).value = "," then
          let ts₂ := adv ts₁
          if (cur ts₂).value ≠ "\x7d" ∧ (cur ts₂).ttype ≠ TType.endT then
            braceLoop fuel L acc₁ hA₁ hE₁ hS ts₂
          else .ok ((acc₁, hA₁, hE₁, hS), ts₂)
        else if (cur ts₁).value = ";" then
          let ts₂ := adv ts₁
          if (cur ts₂).value ≠ "\x7d" ∧ (cur ts₂).ttype ≠ TType.endT then
            braceLoop fuel L acc₁ hA₁ hE₁ true ts₂
          else .ok ((acc₁, hA₁, hE₁, true), ts₂)
        else .ok ((acc₁, hA₁, hE₁, hS), ts₁)

/-- parseCodeBlock (lines 932-972). -/
def parseCodeBlock : Nat → Lookup → List Token → Except String (Node × List Token)
  | 0, _, _ => .error fuelMsg
  | fuel + 1, L, ts =>
    let ts₁ := adv ts
    let looped : Except String (List Node × List Token) :=
      if (cur ts₁).value ≠ "\x7d\x7d" then codeLoop fuel L [] ts₁ else .ok ([], ts₁)
    match looped with
    | .error e => .error e
    | .ok (stmts, ts₂) =>
      if (cur ts₂).value ≠ "\x7d\x7d" then .error "Expected closing \x7d\x7d"
      else .ok (.codeBlock stmts, adv ts₂)

/-- The statement loop of parseCodeBlock (lines 939-958); statements are the
bare parsed expressions, never wrapped. -/
def codeLoop : Nat → Lookup → List Node → List Token →
    Except String (List Node × List Token)
  | 0, _, _, _ => .error fuelMsg
  | fuel + 1, L, acc, ts =>
    match parseExpression fuel L 0 ts with
    | .error e => .error e
    | .ok (stmt, ts₁) =>
      let acc₁ := acc ++ [stmt]
      if (cur ts₁).value = ";" then
        let ts₂ := adv ts₁
        if (cur ts₂).value = "\x7d\x7d" then .ok (acc₁, ts₂)
        else if (cur ts₂).ttype = TType.endT then .ok (acc₁, ts₂)
        else codeLoop fuel L acc₁ ts₂
      else if (cur ts₁).value = "\x7d\x7d" then .ok (acc₁, ts₁)
      else if (cur ts₁).ttype = TType.endT then .error "Expected closing \x7d\x7d"
      else .ok (acc₁, ts₁)

/-- parseUnaryOperator (lines 974-985). -/
def parseUnaryOperator : Nat → Lookup → List Token →
    Except String (Node × List Token)
  | 0, _, _ => .error fuelMsg
  | fuel + 1, L, ts =>
    let op := cur ts
    match parseExpression fuel L 110 (adv ts) with
    | .error e => .error e
    | .ok (operand, ts₂) => .ok (.unaryOperation op.value operand, ts₂)

/-- parseDerivative (lines 988-1034): quote run, optional `[vars]`, optional
calculus parentheses. -/
def parseDerivative : Nat → Lookup → Node → List Token →
    Except String (Node × List Token)
  | 0, _, _, _ => .error fuelMsg
  | fuel + 1, L, left, ts =>
    let (order, ts₁) := countQuotes ts
    let varsStep : Except String (Option (List String) × List Token) :=
      if (cur ts₁).value = "[" then
        match parseVariableList fuel L (adv ts₁) with
        | .error e => .error e
        | .ok (vs, ts₂) =>
          if (cur ts₂).value ≠ "]" then
            .error "Expected closing bracket after variable list"
          else .ok (some vs, adv ts₂)
      else .ok (none, ts₁)
    match varsStep with
    | .error e => .error e
    | .ok (vars, ts₃) =>
      if (cur ts₃).value = "(" then
        match parseCalculusParens fuel L ts₃ with
        | .error e => .error e
        | .ok ((isEval, content), ts₄) =>
          if isEval then .ok (.derivative left order vars (some content) none, ts₄)
          else .ok (.derivative left order vars none (some content), ts₄)
      else .ok (.derivative left order vars none none, ts₃)

/-- parseIntegral (lines 1037-1105); the constant metadata record
`{integrationConstant: 'c', defaultValue: 0}` is not modelled. -/
def parseIntegral : Nat → Lookup → List Token → Except String (Node × List Token)
  | 0, _, _ => .error fuelMsg
  | fuel + 1, L, ts =>
    let (order, ts₁) := countQuotes ts
    let t := cur ts₁
    if t.ttype = TType.identifier then
      let func : Node :=
        if t.kind = some "System" then .systemIdentifier t.value (L t.value)
        else .userIdentifier t.value
      let ts₂ := adv ts₁
      let varsStep : Except String (Option (List String) × List Token) :=
        if (cur ts₂).value = "[" then
          match parseVariableList fuel L (adv ts₂) with
          | .error e => .error e
          | .ok (vs, ts₃) =>
            if (cur ts₃).value ≠ "]" then
              .error "Expected closing bracket after variable list"
            else .ok (some vs, adv ts₃)
        else .ok (none, ts₂)
      match varsStep with
      | .error e => .error e
      | .ok (vars, ts₄) =>
        if (cur ts₄).value = "(" then
          match parseCalculusParens fuel L ts₄ with
          | .error e => .error e
          | .ok ((isEval, content), ts₅) =>
            if isEval then .ok (.integral func order vars (some content) none, ts₅)
            else .ok (.integral func order vars none (some content), ts₅)
        else .ok (.integral func order vars none none, ts₄)
    else .error "Expected function name after integral operator"

/-- parseVariableList (lines 1108-1134). -/
def parseVariableList : Nat → Lookup → List Token →
    Except String (List String × List Token)
  | 0, _, _ => .error fuelMsg
  | fuel + 1, L, ts =>
    if (cur ts).value = "]" then .ok ([], ts) else varLoop fuel L [] ts

/-- The identifier/comma loop of parseVariableList. -/
def varLoop : Nat → Lookup → List String → List Token →
    Except String (List String × List Token)
  | 0, _, _, _ => .error fuelMsg
  | fuel + 1, L, acc, ts =>
    if (cur ts).ttype = TType.identifier then
      let acc₁ := acc ++ [(cur ts).value]
      let ts₁ := adv ts
      if (cur ts₁).value = "," then varLoop fuel L acc₁ (adv ts₁)
      else if (cur ts₁).value = "]" then .ok (acc₁, ts₁)
      else .error "Expected comma or closing bracket in variable list"
    else .error "Expected variable name in variable list"

/-- parseCalculusParentheses (lines 1137-1174): evaluation vs operations. -/
def parseCalculusParens : Nat → Lookup → List Token →
    Except String ((Bool × List Node) × List Token)
  | 0, _, _ => .error fuelMsg
  | fuel + 1, L, ts =>
    match calcLoop fuel L true [] (adv ts) with
    | .error e => .error e
    | .ok ((isEval, content), ts₂) =>
      if (cur ts₂).value ≠ ")" then .error "Expected closing parenthesis"
      else .ok ((isEval, content), adv ts₂)

/-- The expression loop of parseCalculusParentheses. -/
def calcLoop : Nat → Lookup → Bool → List Node → List Token →
    Except String ((Bool × List Node) × List Token)
  | 0, _, _, _, _ => .error fuelMsg
  | fuel + 1, L, isEval, acc, ts =>
    if (cur ts).value = ")" ∨ (cur ts).ttype = TType.endT then .ok ((isEval, acc), ts)
    else
      match parseExpression fuel L 0 ts with
      | .error e => .error e
      | .ok (e, ts₁) =>
        let isEval₁ := isEval && !containsCalc e
        let acc₁ := acc ++ [e]
        if (cur ts₁).value = "," then calcLoop fuel L isEval₁ acc₁ (adv ts₁)
        else .ok ((isEval₁, acc₁), ts₁)

/-- parseFunctionParameters (lines 1225-1269). -/
def parseFunctionParameters : Nat → Lookup → List Token →
    Except String (Params × List Token)
  | 0, _, _ => .error fuelMsg
  | fuel + 1, L, ts => paramLoop fuel L [] [] [] false ts

/-- The parameter loop of parseFunctionParameters: `;` switches to the
keyword section, `? guard` appends a conditional. -/
def paramLoop : Nat → Lookup → List Param → List Param → List Node → Bool →
    List Token → Except String (Params × List Token)
  | 0, _, _, _, _, _, _ => .error fuelMsg
  | fuel + 1, L, pos, kw, conds, inKw, ts =>
    if (cur ts).value = ")" ∨ (cur ts).ttype = TType.endT then
      .ok (.mk pos kw conds [], ts)
    else if (cur ts).value = ";" then paramLoop fuel L pos kw conds true (adv ts)
    else
      match parseFunctionParameter fuel L inKw ts with
      | .error e => .error e
      | .ok (param, ts₁) =>
        let pos₁ := if inKw then pos else pos ++ [param]
        let kw₁ := if inKw then kw ++ [param] else kw
        let condStep : Except String (List Node × List Token) :=
          if (cur ts₁).value = "?" then
            match parseExpression fuel L 46 (adv ts₁) with
            | .error e => .error e
            | .ok (c, ts₂) => .ok (conds ++ [c], ts₂)
          else .ok (conds, ts₁)
        match condStep with
        | .error e => .error e
        | .ok (conds₁, ts₂) =>
          if (cur ts₂).value = "," then paramLoop fuel L pos₁ kw₁ conds₁ inKw (adv ts₂)
          else if (cur ts₂).value ≠ ")" ∧ (cur ts₂).value ≠ ";" then
            .ok (.mk pos₁ kw₁ conds₁ [], ts₂)
          else paramLoop fuel L pos₁ kw₁ conds₁ inKw ts₂

/-- parseFunctionParameter (lines 1271-1297): identifier, optional
`:= default`, and the keyword-only default check. -/
def parseFunctionParameter : Nat → Lookup → Bool → List Token →
    Except String (Param × List Token)
  | 0, _, _, _ => .error fuelMsg
  | fuel + 1, L, isKw, ts =>
    if (cur ts).ttype = TType.identifier ∧ (cur ts).kind = some "User" then
      let name := (cur ts).value
      let ts₁ := adv ts
      let dvStep : Except String (Option Node × List Token) :=
        if (cur ts₁).value = ":=" then
          match parseExpression fuel L 11 (adv ts₁) with
          | .error e => .error e
          | .ok (v, ts₂) => .ok (some v, ts₂)
        else .ok (none, ts₁)
      match dvStep with
      | .error e => .error e
      | .ok (dv, ts₂) =>
        if isKw ∧ dv.isNone then
          .error "Keyword-only parameters must have default values"
        else .ok (.mk (some name) dv, ts₂)
    else .error "Expected parameter name"

/-- parseFunctionCallArgs (lines 1299-1354). -/
def parseFunctionCallArgs : Nat → Lookup → List Token →
    Except String (CallArgs × List Token)
  | 0, _, _ => .error fuelMsg
  | fuel + 1, L, ts => callArgsLoop fuel L [] [] false ts

/-- The argument loop of parseFunctionCallArgs: positional section, then
keyword section after `;` with `name := expr` or identifier shorthand. -/
def callArgsLoop : Nat → Lookup → List Node → List (String × Node) → Bool →
    List Token → Except String (CallArgs × List Token)
  | 0, _, _, _, _, _ => .error fuelMsg
  | fuel + 1, L, pos, kw, inKw, ts =>
    if (cur ts).value = ")" ∨ (cur ts).ttype = TType.endT then .ok (.mk pos kw, ts)
    else if (cur ts).value = ";" then callArgsLoop fuel L pos kw true (adv ts)
    else if inKw then
      if (cur ts).ttype = TType.identifier ∧ (cur ts).kind = some "User" then
        let keyName := (cur ts).value
        let ts₁ := adv ts
        if (cur ts₁).value = ":=" then
          match parseExpression fuel L 11 (adv ts₁) with
          | .error e => .error e
          | .ok (v, ts₂) =>
            let kw₁ := insertKV kw keyName v
            if (cur ts₂).value = "," then callArgsLoop fuel L pos kw₁ inKw (adv ts₂)
            else if (cur ts₂).value ≠ ")" ∧ (cur ts₂).value ≠ ";" then
              .ok (.mk pos kw₁, ts₂)
            else callArgsLoop fuel L pos kw₁ inKw ts₂
        else
          let kw₁ := insertKV kw keyName (.userIdentifier keyName)
          if (cur ts₁).value = "," then callArgsLoop fuel L pos kw₁ inKw (adv ts₁)
          else if (cur ts₁).value ≠ ")" ∧ (cur ts₁).value ≠ ";" then
            .ok (.mk pos kw₁, ts₁)
          else callArgsLoop fuel L pos kw₁ inKw ts₁
      else .error "Expected identifier for keyword argument"
    else
      match parseExpression fuel L 0 ts with
      | .error e => .error e
      | .ok (a, ts₁) =>
        let pos₁ := pos ++ [a]
        if (cur ts₁).value = "," then callArgsLoop fuel L pos₁ kw inKw (adv ts₁)
        else if (cur ts₁).value ≠ ")" ∧ (cur ts₁).value ≠ ";" then
          .ok (.mk pos₁ kw, ts₁)
        else callArgsLoop fuel L pos₁ kw inKw ts₁

end

/-- parseStatement (lines 1555-1585): comment, or an expression wrapped as
Statement exactly when a `;` follows. -/
def parseStatement (fuel : Nat) (L : Lookup) (ts : List Token) :
    Except String (Option Node × List Token) :=
  let t := cur ts
  if t.ttype = TType.endT then .ok (none, ts)
  else if t.ttype = TType.strT ∧ t.kind = some "comment" then
    .ok (some (.comment t.value t.kind), adv ts)
  else
    match parseExpression fuel L 0 ts with
    | .error e => .error e
    | .ok (e, ts₁) =>
      if (cur ts₁).value = ";" then .ok (some (.statement e), adv ts₁)
      else .ok (some e, ts₁)

/-- The top-level statement loop, parse() (lines 1588-1612). -/
def progLoop : Nat → Lookup → List Node → List Token → Except String (List Node)
  | 0, _, _, _ => .error fuelMsg
  | fuel + 1, L, acc, ts =>
    if (cur ts).ttype = TType.endT then .ok acc
    else if (cur ts).ttype = TType.strT ∧ (cur ts).kind = some "comment" then
      progLoop fuel L (acc ++ [.comment (cur ts).value (cur ts).kind]) (adv ts)
    else
      match parseStatement fuel L ts with
      | .error e => .error e
      | .ok (some s, ts₁) => progLoop fuel L (acc ++ [s]) ts₁
      | .ok (none, ts₁) => progLoop fuel L acc ts₁

/-- The exported parse(tokens, systemLookup). -/
def parseProgram (fuel : Nat) (L : Lookup) (ts : List Token) :
    Except String (List Node) :=
  progLoop fuel L [] ts

/-! ## Concrete-token helpers for witnesses and counterexamples -/

/-- A symbol token. -/
def symT (v : String) : Token := { ttype := .symbol, value := v }

/-- A number token. -/
def numT (v : String) : Token := { ttype := .number, value := v }

/-- A user-identifier token. -/
def idUT (n : String) : Token := { ttype := .identifier, value := n, kind := some "User" }

/-- A trivial oracle: every name is a plain identifier. -/
def defLookup : Lookup := fun _ => { stype := "identifier" }

/-- The two node shapes that produce a pattern in `:=>` lowering. -/
def lambdaShaped : Node → Bool
  | .functionLambda _ _ => true
  | .binaryOperation op _ _ => op = "->"
  | _ => false

/-- The loop state reached on the tokens of `[;1]`. -/
def c3St : ArrSt :=
  { elements := [.number "1"], hasMetadata := false,
    primaryElement := some (.number "1"), metadataMap := [],
    nonMetadataCount := 1, hasSemicolons := true,
    struct := [.mk [] 1], currentRow := [.number "1"] }

/-- The loop state reached on the tokens of `[a := 1, ;]`: both hasMetadata
and hasSemicolons are set. -/
def c5St : ArrSt :=
  { elements := [], hasMetadata := true, primaryElement := none,
    metadataMap := [("a", .number "1")], nonMetadataCount := 0,
    hasSemicolons := true, struct := [.mk [] 1], currentRow := [] }

/-- The invariant tying the primary element and the non-metadata count to
the recorded element list. -/
def arrInv (st : ArrSt) : Prop :=
  st.primaryElement = st.elements.head? ∧ st.nonMetadataCount = st.elements.length

mutual

/-- No Statement node occurs anywhere in this tree. -/
def noStmt : Node → Bool
  | .statement _ => false
  | .number _ => true
  | .str _ _ => true
  | .userIdentifier _ => true
  | .systemIdentifier _ _ => true
  | .placeHolder _ => true
  | .nullN => true
  | .unaryOperation _ o => noStmt o
  | .binaryOperation _ l r => noStmt l && noStmt r
  | .grouping e => noStmt e
  | .tuple es => noStmtL es
  | .arrayN es => noStmtL es
  | .setN es => noStmtL es
  | .mapN es => noStmtL es
  | .system es => noStmtL es
  | .matrix rows => noStmtLL rows
  | .tensor st _ => noStmtT st
  | .withMetadata p md => noStmt p && noStmtKV md
  | .codeBlock ss => noStmtL ss
  | .functionCall f args => noStmt f && noStmtArgs args
  | .functionDefinition n ps b => noStmt n && noStmtP ps && noStmt b
  | .functionLambda ps b => noStmtP ps && noStmt b
  | .patternMatchingFunction n ps pats md =>
    noStmt n && noStmtP ps && noStmtPats pats && noStmtKV md
  | .parameterList ps => noStmtP ps
  | .pipe l r => noStmt l && noStmt r
  | .explicitPipe l r => noStmt l && noStmt r
  | .mapOp l r => noStmt l && noStmt r
  | .filterOp l r => noStmt l && noStmt r
  | .reduceOp l r => noStmt l && noStmt r
  | .propertyAccess o p => noStmt o && noStmt p
  | .derivative f _ _ ev ops => noStmt f && noStmtO ev && noStmtO ops
  | .integral f _ _ ev ops => noStmt f && noStmtO ev && noStmtO ops
  | .embeddedLanguage _ _ _ => true
  | .comment _ _ => true

/-- noStmt over a node list. -/
def noStmtL : List Node → Bool
  | [] => true
  | n :: ns => noStmt n && noStmtL ns

/-- noStmt over a list of rows. -/
def noStmtLL : List (List Node) → Bool
  | [] => true
  | r :: rs => noStmtL r && noStmtLL rs

/-- noStmt over tensor entries. -/
def noStmtT : List TEntry → Bool
  | [] => true
  | .mk r _ :: rest => noStmtL r && noStmtT rest

/-- noStmt over metadata maps. -/
def noStmtKV : List (String × Node) → Bool
  | [] => true
  | (_, v) :: rest => noStmt v && noStmtKV rest

/-- noStmt over an optional node list. -/
def noStmtO : Option (List Node) → Bool
  | none => true
  | some l => noStmtL l

/-- noStmt over a parameter specification. -/
def noStmtP : Params → Bool
  | .mk pos kw conds md => noStmtPL pos && noStmtPL kw && noStmtL conds && noStmtKV md

/-- noStmt over a parameter list. -/
def noStmtPL : List Param → Bool
  | [] => true
  | .mk _ d :: rest => noStmtOD d && noStmtPL rest

/-- noStmt over an optional default value. -/
def noStmtOD : Option Node → Bool
  | none => true
  | some n => noStmt n

/-- noStmt over call arguments. -/
def noStmtArgs : CallArgs → Bool
  | .mk pos kw => noStmtL pos && noStmtKV kw

/-- noStmt over pattern lists. -/
def noStmtPats : List Pattern → Bool
  | [] => true
  | .mk ps b :: rest => noStmtP ps && noStmt b && noStmtPats rest

end

/-- The statement-freedom invariant of the array-loop state. -/
def arrStClean (st : ArrSt) : Bool :=
  noStmtL st.elements && noStmtOD st.primaryElement && noStmtKV st.metadataMap &&
    noStmtT st.struct && noStmtL st.currentRow

/-- Statement-freedom of every node-producing parser routine at a given
fuel: the induction invariant for C10. -/
structure CleanAll (fuel : Nat) : Prop where
  pExpr : ∀ L minPrec ts n rest,
    parseExpression fuel L minPrec ts = .ok (n, rest) → noStmt n = true
  pLoop : ∀ L minPrec left ts n rest,
    parseInfixLoop fuel L minPrec left ts = .ok (n, rest) →
    noStmt left = true → noStmt n = true
  pPre : ∀ L ts n rest, parsePrefix fuel L ts = .ok (n, rest) → noStmt n = true
  pInf : ∀ L left info ts n rest,
    parseInfix fuel L left info ts = .ok (n, rest) →
    noStmt left = true → noStmt n = true
  pGroup : ∀ L ts n rest, parseGrouping fuel L ts = .ok (n, rest) → noStmt n = true
  pTupEls : ∀ L ts es rest,
    parseTupleElements fuel L ts = .ok (es, rest) → noStmtL es = true
  pTupLoop : ∀ L acc ts es rest,
    tupleLoop fuel L acc ts = .ok (es, rest) → noStmtL acc = true → noStmtL es = true
  pArr : ∀ L ts n rest, parseArray fuel L ts = .ok (n, rest) → noStmt n = true
  pMatArr : ∀ L ts n rest,
    parseMatrixOrArray fuel L ts = .ok (n, rest) → noStmt n = true
  pArrTop : ∀ L ts st rest,
    arrLoopTop fuel L ts = .ok (st, rest) → arrStClean st = true
  pArrLoop : ∀ L st ts st' rest,
    arrLoop fuel L st ts = .ok (st', rest) →
    arrStClean st = true → arrStClean st' = true
  pBrace : ∀ L ts n rest,
    parseBraceContainer fuel L ts = .ok (n, rest) → noStmt n = true
  pBraceTop : ∀ L ts out rest,
    braceLoopTop fuel L ts = .ok (out, rest) → noStmtL out.1 = true
  pBraceLoop : ∀ L acc hA hE hS ts out rest,
    braceLoop fuel L acc hA hE hS ts = .ok (out, rest) →
    noStmtL acc = true → noStmtL out.1 = true
  pCode : ∀ L ts n rest, parseCodeBlock fuel L ts = .ok (n, rest) → noStmt n = true
  pCodeLoop : ∀ L acc ts ss rest,
    codeLoop fuel L acc ts = .ok (ss, rest) → noStmtL acc = true → noStmtL ss = true
  pUn : ∀ L ts n rest,
    parseUnaryOperator fuel L ts = .ok (n, rest) → noStmt n = true
  pDeriv : ∀ L left ts n rest,
    parseDerivative fuel L left ts = .ok (n, rest) →
    noStmt left = true → noStmt n = true
  pInt : ∀ L ts n rest, parseIntegral fuel L ts = .ok (n, rest) → noStmt n = true
  pCalc : ∀ L ts out rest,
    parseCalculusParens fuel L ts = .ok (out, rest) → noStmtL out.2 = true
  pCalcLoop : ∀ L isEval acc ts out rest,
    calcLoop fuel L isEval acc ts = .ok (out, rest) →
    noStmtL acc = true → noStmtL out.2 = true
  pFPs : ∀ L ts ps rest,
    parseFunctionParameters fuel L ts = .ok (ps, rest) → noStmtP ps = true
  pPLoop : ∀ L pos kw conds inKw ts ps rest,
    paramLoop fuel L pos kw conds inKw ts = .ok (ps, rest) →
    noStmtPL pos = true → noStmtPL kw = true → noStmtL conds = true →
    noStmtP ps = true
  pFP : ∀ L isKw ts p rest,
    parseFunctionParameter fuel L isKw ts = .ok (p, rest) →
    noStmtOD (Param.defaultValue p) = true
  pCArgs : ∀ L ts args rest,
    parseFunctionCallArgs fuel L ts = .ok (args, rest) → noStmtArgs args = true
  pCALoop : ∀ L pos kw inKw ts args rest,
    callArgsLoop fuel L pos kw inKw ts = .ok (args, rest) →
    noStmtL pos = true → noStmtKV kw = true → noStmtArgs args = true

/-- A node allowed at top level by the Statement invariant: a Statement
wrapper whose body is Statement-free, or any Statement-free node (comments
included). -/
def topClean : Node → Bool
  | .statement e => noStmt e
  | n => noStmt n

/-! ## C1: `->` lowering -/

/-- The left shapes inside a Grouping for which the `->` lowering extracts
non-empty parameters. -/
def arrowGroupSpecial : Node → Bool
  | .parameterList _ => true
  | .userIdentifier _ => true
  | .binaryOperation op _ _ => op = "?"
  | _ => false

/-- Is the node a Grouping or a Tuple? -/
def isGroupingOrTuple : Node → Bool
  | .grouping _ => true
  | .tuple _ => true
  | _ => false

/-- C1 counterexample: in `(1) -> x` the left operand `Grouping(Number 1)`
is none of the four shapes listed by the claim, yet the parser produces a
`FunctionLambda` with empty parameters instead of the claimed plain
`BinaryOperation('->')`. -/
theorem c1_counterexample :
    parseExpression 40 defLookup 0
      [symT "(", numT "1", symT ")", symT "->", idUT "x"] =
    .ok (.functionLambda emptyParams (.userIdentifier "x"), []) := by
  rfl

/-- C1 (amended): `Grouping(ParameterList)`, `Grouping(UserIdentifier)`,
`Grouping(? binop)`, and Tuples lower to FunctionLambda as the claim says,
but additionally every other Grouping lowers to a FunctionLambda with empty
parameters, and every Tuple lowers to a FunctionLambda keeping only its
UserIdentifier elements; only a left operand that is neither a Grouping nor
a Tuple yields a plain `BinaryOperation('->')`. -/
theorem c1_arrow_lowering :
    (∀ ps r, lowerArrow (.grouping (.parameterList ps)) r = .functionLambda ps r) ∧
    (∀ n r, lowerArrow (.grouping (.userIdentifier n)) r =
      .functionLambda (.mk [.mk (some n) none] [] [] []) r) ∧
    (∀ a c r, lowerArrow (.grouping (.binaryOperation "?" a c)) r =
      .functionLambda (.mk [.mk (nameOrValue a) none] [] [c] []) r) ∧
    (∀ es r, lowerArrow (.tuple es) r = .functionLambda (.mk (tupleParams es) [] [] []) r) ∧
    (∀ e r, arrowGroupSpecial e = false →
      lowerArrow (.grouping e) r = .functionLambda emptyParams r) ∧
    (∀ l r, isGroupingOrTuple l = false → lowerArrow l r = .binaryOperation "->" l r) := by
  refine ⟨fun ps r => rfl, fun n r => rfl, fun a c r => rfl, fun es r => rfl, ?_, ?_⟩
  · intro e r h
    cases e <;> simp_all [arrowGroupSpecial, lowerArrow]
  · intro l r h
    cases l <;> simp_all [isGroupingOrTuple, lowerArrow]

/-- Closed instance of the amended C1 theorem. -/
theorem c1_witness :
    lowerArrow (.grouping (.number "7")) (.userIdentifier "y") =
      .functionLambda emptyParams (.userIdentifier "y") ∧
    lowerArrow (.number "2") (.userIdentifier "y") =
      .binaryOperation "->" (.number "2") (.userIdentifier "y") :=
  ⟨c1_arrow_lowering.2.2.2.2.1 (.number "7") (.userIdentifier "y") rfl,
   c1_arrow_lowering.2.2.2.2.2 (.number "2") (.userIdentifier "y") rfl⟩

/-! ## C9: `:=>` pattern lowering skips non-lambda entries -/


theorem toPattern_isSome (n : Node) : (toPattern n).isSome = lambdaShaped n := by
  cases n <;> simp_all [toPattern, lambdaShaped]
  case binaryOperation op l r =>
    rcases eq_or_ne op "->" with h | h <;> simp [toPattern, h]

theorem length_filterMap_countP (f : α → Option β) (l : List α) :
    (l.filterMap f).length = l.countP (fun a => (f a).isSome) := by
  induction l with
  | nil => rfl
  | cons a l ih =>
    rw [List.filterMap_cons, List.countP_cons]
    cases h : f a <;> simp [ih, h]

/-- C9 (confirmed): in `:=>` lowering, array entries that are neither a
FunctionLambda nor a `->` BinaryOperation are silently skipped; the pattern
list has exactly one entry per lambda-shaped element, hence at most as many
patterns as array entries, and no error is produced. -/
theorem c9_pattern_skip :
    (∀ es, lowerPatterns (.arrayN es) = es.filterMap toPattern) ∧
    (∀ n, lambdaShaped n = false → toPattern n = none) ∧
    (∀ n, lambdaShaped n = true → (toPattern n).isSome = true) ∧
    (∀ es, (lowerPatterns (.arrayN es)).length = es.countP lambdaShaped) ∧
    (∀ es, (lowerPatterns (.arrayN es)).length ≤ es.length) ∧
    (∀ l r, ∃ fn ps, lowerPatternMatch l r =
      .patternMatchingFunction fn ps (lowerPatterns r) (selectRaw r).2) := by
  have hsome : ∀ n, (toPattern n).isSome = lambdaShaped n := toPattern_isSome
  refine ⟨fun es => rfl, ?_, ?_, ?_, ?_, ?_⟩
  · intro n h
    have := hsome n
    rw [h] at this
    exact Option.not_isSome_iff_eq_none.mp (by simp [this])
  · intro n h
    rw [hsome n, h]
  · intro es
    show (es.filterMap toPattern).length = _
    rw [length_filterMap_countP]
    exact List.countP_congr fun n _ => by rw [hsome n]
  · intro es
    exact List.length_filterMap_le toPattern es
  · intro l r
    cases l <;> exact ⟨_, _, rfl⟩

/-- Closed instance of the C9 theorem: one lambda entry, one skipped Number
entry, one pattern in the result. -/
theorem c9_witness :
    toPattern (.number "3") = none ∧
    (lowerPatterns (.arrayN [.functionLambda emptyParams (.number "1"), .number "3"])).length =
      List.countP lambdaShaped [.functionLambda emptyParams (.number "1"), .number "3"] :=
  ⟨c9_pattern_skip.2.1 (.number "3") rfl,
   c9_pattern_skip.2.2.2.1 [.functionLambda emptyParams (.number "1"), .number "3"]⟩

/-! ## C3: Matrix vs Tensor classification -/

/-- C3 (confirmed): for a square-bracket container parsed with semicolon
separators and no metadata, the finalised structure is non-empty, its last
entry has separatorLevel 0, and the result is `Matrix(rows)` (rows taken
verbatim, empty ones included) when the maximum separator level is 1, or
`Tensor(structure, 1 + max separatorLevel)` when it is at least 2. -/
theorem c3_matrix_tensor :
    ∀ fuel L ts st rest node,
      arrLoopTop fuel L ts = .ok (st, rest) →
      st.hasSemicolons = true →
      st.hasMetadata = false →
      finishArrayCore (arrFinish st) = .ok node →
      (arrFinish st).struct ≠ [] ∧
      (∃ e, (arrFinish st).struct.getLast? = some e ∧ e.separatorLevel = 0) ∧
      node = buildMatrixTensor (arrFinish st).struct ∧
      (maxSep (arrFinish st).struct = 1 →
        node = .matrix ((arrFinish st).struct.map TEntry.row)) ∧
      (2 ≤ maxSep (arrFinish st).struct →
        node = .tensor (arrFinish st).struct (1 + maxSep (arrFinish st).struct)) := by
  intro fuel L ts st rest node _hloop hsemi hmeta hfin
  have hfs : arrFinish st = { st with struct := st.struct ++ [.mk st.currentRow 0] } := by
    unfold arrFinish
    rw [if_pos (Or.inr hsemi)]
  have hnode : node = buildMatrixTensor (arrFinish st).struct := by
    unfold finishArrayCore at hfin
    rw [hfs] at hfin ⊢
    simp only [hmeta, false_and, if_false, hsemi, if_true] at hfin
    · exact (Except.ok.injEq _ _).mp hfin.symm
  refine ⟨?_, ?_, hnode, ?_, ?_⟩
  · rw [hfs]
    simp
  · rw [hfs]
    exact ⟨.mk st.currentRow 0, by simp, rfl⟩
  · intro h1
    rw [hnode]
    unfold buildMatrixTensor
    rw [if_pos h1]
  · intro h2
    rw [hnode]
    unfold buildMatrixTensor
    rw [if_neg (by omega), Nat.add_comm]


/-- Closed instance of C3 on the container `[;1]`: a leading semicolon gives
`Matrix [[], [1]]`, with the empty row preserved. -/
theorem c3_witness :
    (arrFinish c3St).struct ≠ [] ∧
    (∃ e, (arrFinish c3St).struct.getLast? = some e ∧ e.separatorLevel = 0) ∧
    Node.matrix [[], [.number "1"]] = buildMatrixTensor (arrFinish c3St).struct ∧
    (maxSep (arrFinish c3St).struct = 1 →
      Node.matrix [[], [.number "1"]] = .matrix ((arrFinish c3St).struct.map TEntry.row)) ∧
    (2 ≤ maxSep (arrFinish c3St).struct →
      Node.matrix [[], [.number "1"]] =
        .tensor (arrFinish c3St).struct (1 + maxSep (arrFinish c3St).struct)) :=
  c3_matrix_tensor 20 defLookup [symT ";", numT "1", symT "]"] c3St [symT "]"]
    (.matrix [[], [.number "1"]]) rfl rfl rfl rfl

/-! ## C7: keyword-only parameters must carry defaults -/

theorem parseFunctionParameter_kw (fuel : Nat) (L : Lookup) (ts : List Token)
    (p : Param) (rest : List Token)
    (h : parseFunctionParameter fuel L true ts = .ok (p, rest)) :
    p.defaultValue ≠ none := by
  match fuel with
  | 0 => simp [parseFunctionParameter, fuelMsg] at h
  | fuel + 1 =>
    simp only [parseFunctionParameter] at h
    split at h
    · split at h
      · simp at h
      · split at h
        · simp at h
        · rename_i dvStep dv ts₂ heq hcond
          cases h
          simp only [true_and] at hcond
          simp only [Param.defaultValue]
          intro hn
          rw [hn] at hcond
          exact hcond rfl
    · simp at h

theorem parseFunctionParameter_kw_error (fuel : Nat) (L : Lookup) (ts : List Token)
    (h1 : (cur ts).ttype = TType.identifier) (h2 : (cur ts).kind = some "User")
    (h3 : (cur (adv ts)).value ≠ ":=") :
    parseFunctionParameter (fuel + 1) L true ts =
      .error "Keyword-only parameters must have default values" := by
  simp [parseFunctionParameter, h1, h2, h3]

theorem paramLoop_kw_defaults (fuel : Nat) :
    ∀ (L : Lookup) (pos kw : List Param) (conds : List Node) (inKw : Bool)
      (ts : List Token) (ps : Params) (rest : List Token),
      paramLoop fuel L pos kw conds inKw ts = .ok (ps, rest) →
      (∀ p ∈ kw, p.defaultValue ≠ none) →
      ∀ p ∈ ps.keyword, p.defaultValue ≠ none := by
  induction fuel with
  | zero =>
    intro L pos kw conds inKw ts ps rest h
    simp [paramLoop, fuelMsg] at h
  | succ fuel ih =>
    intro L pos kw conds inKw ts ps rest h hkw
    simp only [paramLoop] at h
    split at h
    · cases h
      exact hkw
    · split at h
      · exact ih L pos kw conds true (adv ts) ps rest h hkw
      · split at h
        · simp at h
        · rename_i param ts₁ hparam
          have hkw₁ : ∀ p ∈ (if inKw then kw ++ [param] else kw),
              p.defaultValue ≠ none := by
            cases inKw with
            | false => simpa using hkw
            | true =>
              simp only [if_true]
              intro p hp
              rcases List.mem_append.mp hp with hp | hp
              · exact hkw p hp
              · rw [List.mem_singleton.mp hp]
                exact parseFunctionParameter_kw fuel L ts param ts₁ hparam
          split at h
          · simp at h
          · rename_i conds₁ ts₂ hcond
            split at h
            · exact ih L _ _ conds₁ inKw (adv ts₂) ps rest h hkw₁
            · split at h
              · cases h
                exact hkw₁
              · exact ih L _ _ conds₁ inKw ts₂ ps rest h hkw₁

/-- C7 (confirmed): a keyword-only formal parameter (after the `;`
separator) without a `:= default` fails with the
keyword-only-parameters-must-have-default-values error, and in every
successfully parsed parameter specification every keyword entry has a
non-null defaultValue. -/
theorem c7_keyword_defaults :
    (∀ fuel L ts p rest, parseFunctionParameter fuel L true ts = .ok (p, rest) →
      p.defaultValue ≠ none) ∧
    (∀ fuel L ts, (cur ts).ttype = TType.identifier → (cur ts).kind = some "User" →
      (cur (adv ts)).value ≠ ":=" →
      parseFunctionParameter (fuel + 1) L true ts =
        .error "Keyword-only parameters must have default values") ∧
    (∀ fuel L ts ps rest, parseFunctionParameters fuel L ts = .ok (ps, rest) →
      ∀ p ∈ ps.keyword, p.defaultValue ≠ none) := by
  refine ⟨parseFunctionParameter_kw, parseFunctionParameter_kw_error, ?_⟩
  intro fuel L ts ps rest h
  match fuel with
  | 0 => simp [parseFunctionParameters, fuelMsg] at h
  | fuel + 1 =>
    simp only [parseFunctionParameters] at h
    exact paramLoop_kw_defaults fuel L [] [] [] false ts ps rest h (by simp)

/-- Closed instance of C7: `(x; y)` fails because `y` lacks a default, and
`(x; a := 0)` succeeds with the keyword entry carrying its default. -/
theorem c7_witness :
    parseFunctionParameter (10 + 1) defLookup true [idUT "y", symT ")"] =
      .error "Keyword-only parameters must have default values" ∧
    ∀ p ∈ (Params.mk [.mk (some "x") none] [.mk (some "a") (some (.number "0"))] [] []).keyword,
      p.defaultValue ≠ none :=
  ⟨c7_keyword_defaults.2.1 10 defLookup [idUT "y", symT ")"] rfl rfl (by decide),
   c7_keyword_defaults.2.2 20 defLookup
     [idUT "x", symT ";", idUT "a", symT ":=", numT "0", symT ")"]
     (.mk [.mk (some "x") none] [.mk (some "a") (some (.number "0"))] [] [])
     [symT ")"] rfl⟩

/-! ## C2: parenthesis disambiguation -/

/-- C2 counterexample: in `([1;2])` the only `;` lies inside an inner
square-bracket pair, so by the claim the content should classify as a single
grouped expression; the scan tracks only parenthesis depth, classifies the
content as a parameter list, and parsing fails. -/
theorem c2_counterexample :
    parseGrouping 40 defLookup
      [symT "(", symT "[", numT "1", symT ";", numT "2", symT "]", symT ")"] =
    .error "Expected parameter name" := by
  rfl

/-- C2 (amended): an immediate `)` yields `Tuple([])`; otherwise the parser
scans from the SECOND content token onward (the first content token is never
examined), tracking only parenthesis nesting — separators inside
square-bracket or brace pairs count at depth zero.  A detected `;` yields
`Grouping(ParameterList(...))`, a `,` with no `;` yields a Tuple, anything
else a `Grouping`; in tuples a trailing comma adds no element and two
consecutive commas fail with the consecutive-commas error. -/
theorem c2_grouping :
    (∀ fuel L (ts : List Token), (cur (adv ts)).value = ")" →
      parseGrouping (fuel + 1) L ts = .ok (.tuple [], adv (adv ts))) ∧
    (∀ fuel L (ts : List Token) n rest,
      parseGrouping (fuel + 1) L ts = .ok (n, rest) →
      (cur (adv ts)).value ≠ ")" →
      ((scanGroup (adv (adv ts)) 0 false).1 = true →
        ∃ ps, n = .grouping (.parameterList ps)) ∧
      ((scanGroup (adv (adv ts)) 0 false).1 = false →
        (scanGroup (adv (adv ts)) 0 false).2 = true → ∃ es, n = .tuple es) ∧
      ((scanGroup (adv (adv ts)) 0 false).1 = false →
        (scanGroup (adv (adv ts)) 0 false).2 = false → ∃ e, n = .grouping e)) ∧
    (∀ fuel L acc (ts : List Token), (cur ts).value = "," → (cur (adv ts)).value = "," →
      tupleLoop (fuel + 1) L acc ts =
        .error "Consecutive commas not allowed in tuples") ∧
    (∀ fuel L acc (ts : List Token), (cur ts).value = "," → (cur (adv ts)).value = ")" →
      tupleLoop (fuel + 1) L acc ts = .ok (acc, adv ts)) := by
  refine ⟨?_, ?_, ?_, ?_⟩
  · intro fuel L ts h
    simp [parseGrouping, h]
  · intro fuel L ts n rest h hne
    simp only [parseGrouping, if_neg hne] at h
    refine ⟨?_, ?_, ?_⟩
    · intro hsemi
      rw [hsemi] at h
      simp only [if_true] at h
      split at h
      · simp at h
      · rename_i n' ts₂ heq
        split at h
        · simp at h
        · split at heq
          · simp at heq
          · rename_i ps ts₃ hps
            cases heq
            cases h
            exact ⟨ps, rfl⟩
    · intro hsemi hcomma
      rw [hsemi, hcomma] at h
      simp only [Bool.false_eq_true, if_false, if_true] at h
      split at h
      · simp at h
      · rename_i n' ts₂ heq
        split at h
        · simp at h
        · split at heq
          · simp at heq
          · rename_i es ts₃ hes
            cases heq
            cases h
            exact ⟨es, rfl⟩
    · intro hsemi hcomma
      rw [hsemi, hcomma] at h
      simp only [Bool.false_eq_true, if_false] at h
      split at h
      · simp at h
      · rename_i n' ts₂ heq
        split at h
        · simp at h
        · split at heq
          · simp at heq
          · rename_i e ts₃ he
            cases heq
            cases h
            exact ⟨e, rfl⟩
  · intro fuel L acc ts h1 h2
    simp [tupleLoop, h1, h2]
  · intro fuel L acc ts h1 h2
    simp [tupleLoop, h1, h2]

/-- Closed instance of the amended C2: `(x)` groups, `(x,)` is a singleton
tuple with the trailing comma adding nothing. -/
theorem c2_witness :
    ((scanGroup (adv (adv [symT "(", idUT "x", symT ")"])) 0 false).1 = false →
      (scanGroup (adv (adv [symT "(", idUT "x", symT ")"])) 0 false).2 = false →
      ∃ e, Node.grouping (.userIdentifier "x") = .grouping e) ∧
    tupleLoop (10 + 1) defLookup [.userIdentifier "x"] [symT ",", symT ")"] =
      .ok ([.userIdentifier "x"], adv [symT ",", symT ")"]) :=
  ⟨((c2_grouping.2.1 30 defLookup [symT "(", idUT "x", symT ")"]
      (.grouping (.userIdentifier "x")) [] rfl (by decide)).2.2),
   c2_grouping.2.2.2 10 defLookup [.userIdentifier "x"] [symT ",", symT ")"] rfl rfl⟩

/-! ## C4: System containers -/

theorem braceStep_flags (el : Node) (hA hE hA' hE' : Bool)
    (h : braceStep el hA hE = .ok (hA', hE')) :
    hA' = (hA || isAssignB el) ∧ hE' = (hE || isEqB el) := by
  cases el <;> simp_all [braceStep, isAssignB, isEqB]
  case binaryOperation op l r =>
    split at h
    · rename_i hop
      cases h
      simp [hop]
    · split at h
      · rename_i hop
        cases h
        rcases hop with h1 | h1 | h1 | h1 | h1 <;> simp [h1]
      · rename_i hop1 hop2
        cases h
        push_neg at hop2
        obtain ⟨e1, e2, e3, e4, e5⟩ := hop2
        simp [hop1, e1, e2, e3, e4, e5]

theorem braceLoop_flags (fuel : Nat) :
    ∀ (L : Lookup) (acc : List Node) (hA hE hS : Bool) (ts : List Token)
      elems hA' hE' hS' rest,
      braceLoop fuel L acc hA hE hS ts = .ok ((elems, hA', hE', hS'), rest) →
      ∃ newE, elems = acc ++ newE ∧
        hA' = (hA || newE.any isAssignB) ∧ hE' = (hE || newE.any isEqB) := by
  induction fuel with
  | zero =>
    intro L acc hA hE hS ts elems hA' hE' hS' rest h
    simp [braceLoop, fuelMsg] at h
  | succ fuel ih =>
    intro L acc hA hE hS ts elems hA' hE' hS' rest h
    simp only [braceLoop] at h
    split at h
    · simp at h
    · rename_i el ts₁ hel
      split at h
      · simp at h
      · rename_i hA₁ hE₁ hstep
        obtain ⟨ha1, he1⟩ := braceStep_flags el hA hE hA₁ hE₁ hstep
        have step : ∀ newE', elems = (acc ++ [el]) ++ newE' →
            hA' = (hA₁ || newE'.any isAssignB) → hE' = (hE₁ || newE'.any isEqB) →
            ∃ newE, elems = acc ++ newE ∧
              hA' = (hA || newE.any isAssignB) ∧ hE' = (hE || newE.any isEqB) := by
          intro newE' he ha hb
          refine ⟨el :: newE', by simpa using he, ?_, ?_⟩
          · rw [ha, ha1, List.any_cons, Bool.or_assoc]
          · rw [hb, he1, List.any_cons, Bool.or_assoc]
        split at h
        · split at h
          · obtain ⟨newE', he, ha, hb⟩ :=
              ih L (acc ++ [el]) hA₁ hE₁ hS _ elems hA' hE' hS' rest h
            exact step newE' he ha hb
          · cases h
            exact step [] (by simp) (by simp) (by simp)
        · split at h
          · split at h
            · obtain ⟨newE', he, ha, hb⟩ :=
                ih L (acc ++ [el]) hA₁ hE₁ true _ elems hA' hE' hS' rest h
              exact step newE' he ha hb
            · cases h
              exact step [] (by simp) (by simp) (by simp)
          · cases h
            exact step [] (by simp) (by simp) (by simp)

theorem braceClassify_equations (elems : List Node) (hA hS : Bool) (n : Node)
    (h : braceClassify elems hA true hS = .ok n) :
    hS = true ∧ hA = false ∧ n = .system elems ∧ elems.all isEqB = true := by
  simp only [braceClassify] at h
  rw [if_pos trivial] at h
  split at h
  · simp at h
  · rename_i hns
    split at h
    · simp at h
    · rename_i hna
      split at h
      · rename_i hall
        cases h
        refine ⟨by simpa using hns, by simpa using hna, rfl, by simpa [List.all_eq_true] using hall⟩
      · simp at h

/-- C4 (corrected): when a single-brace container holds at least one
equation element, a successful parse forces at least one semicolon
separator (hS), no `:=` assignment element, and a System node holding
exactly the parsed elements, all of which are equations; with an equation
present but no semicolon separator (resp. with a `:=` element) parsing
fails with the corresponding error.  Comma separators are permitted as long
as some semicolon separator occurs. -/
theorem c4_system_containers :
    (∀ fuel L (ts : List Token) n rest elems hA hE hS ts₂,
      parseBraceContainer (fuel + 1) L ts = .ok (n, rest) →
      braceLoopTop fuel L (adv ts) = .ok ((elems, hA, hE, hS), ts₂) →
      elems.any isEqB = true →
      hS = true ∧ hA = false ∧ n = .system elems ∧ elems.all isEqB = true) ∧
    (∀ elems hA, braceClassify elems hA true false =
      .error "System containers must contain only equations with equation operators separated by semicolons") ∧
    (∀ elems, braceClassify elems true true true =
      .error "Cannot mix equations with other assignment types") := by
  refine ⟨?_, ?_, ?_⟩
  · intro fuel L ts n rest elems hA hE hS ts₂ h hloop hany
    have hE_true : hE = true := by
      match fuel with
      | 0 => simp [braceLoopTop, fuelMsg] at hloop
      | fuel + 1 =>
        simp only [braceLoopTop] at hloop
        split at hloop
        · obtain ⟨newE, he, -, hb⟩ :=
            braceLoop_flags fuel L [] false false false _ elems hA hE hS ts₂ hloop
          rw [hb, Bool.false_or, ← List.nil_append newE, ← he]
          exact hany
        · cases hloop
          simp at hany
    subst hE_true
    simp only [parseBraceContainer] at h
    split at h
    · simp at h
    · rename_i elems' hA' hE' hS' ts₂' heq
      rw [hloop] at heq
      cases heq
      split at h
      · simp at h
      · split at h
        · simp at h
        · rename_i nn hcls
          injection h with hpair
          injection hpair with hn hrest
          subst hn
          exact braceClassify_equations elems hA hS nn hcls
  · intro elems hA
    simp [braceClassify]
  · intro elems
    simp [braceClassify]

/-- C4 counterexample: `{a :=: 1, b :=: 2;}` parses successfully as a
System although its two equation elements are separated by a comma — only a
trailing semicolon occurs — contradicting "succeeds only if the elements
were semicolon-separated". -/
theorem c4_counterexample :
    parseBraceContainer 40 defLookup
      [symT "\x7b", idUT "a", symT ":=:", numT "1", symT ",", idUT "b", symT ":=:",
       numT "2", symT ";", symT "\x7d"] =
    .ok (.system [.binaryOperation ":=:" (.userIdentifier "a") (.number "1"),
                  .binaryOperation ":=:" (.userIdentifier "b") (.number "2")], []) := by
  rfl

/-- Closed instance of the amended C4 on the same container. -/
theorem c4_witness :
    (true : Bool) = true ∧ (false : Bool) = false ∧
    Node.system [.binaryOperation ":=:" (.userIdentifier "a") (.number "1"),
                 .binaryOperation ":=:" (.userIdentifier "b") (.number "2")] =
      .system [.binaryOperation ":=:" (.userIdentifier "a") (.number "1"),
               .binaryOperation ":=:" (.userIdentifier "b") (.number "2")] ∧
    List.all [Node.binaryOperation ":=:" (.userIdentifier "a") (.number "1"),
              Node.binaryOperation ":=:" (.userIdentifier "b") (.number "2")] isEqB = true :=
  c4_system_containers.1 39 defLookup
    [symT "\x7b", idUT "a", symT ":=:", numT "1", symT ",", idUT "b", symT ":=:",
     numT "2", symT ";", symT "\x7d"]
    (.system [.binaryOperation ":=:" (.userIdentifier "a") (.number "1"),
              .binaryOperation ":=:" (.userIdentifier "b") (.number "2")]) []
    [.binaryOperation ":=:" (.userIdentifier "a") (.number "1"),
     .binaryOperation ":=:" (.userIdentifier "b") (.number "2")]
    false true true [symT "\x7d"] rfl rfl rfl

/-! ## C5: array metadata -/


/-- C5 counterexample: in `[a := 1, ;]` the `;` after the comma is processed
as a row separator (hasSemicolons becomes true, an empty row is recorded)
while the container already holds metadata, yet parsing succeeds as
`WithMetadata` with no error — metadata and semicolon separators are not
mutually exclusive. -/
theorem c5_counterexample :
    arrLoopTop 20 defLookup [idUT "a", symT ":=", numT "1", symT ",", symT ";", symT "]"] =
      .ok (c5St, [symT "]"]) ∧
    c5St.hasMetadata = true ∧ c5St.hasSemicolons = true ∧
    finishArrayCore (arrFinish c5St) =
      .ok (.withMetadata (.arrayN []) [("a", .number "1")]) :=
  ⟨rfl, rfl, rfl, rfl⟩


theorem arrHandleElement_inv (st : ArrSt) (el : Node) (st' : ArrSt)
    (h : arrHandleElement st el = .ok st') (hinv : arrInv st) : arrInv st' := by
  obtain ⟨h1, h2⟩ := hinv
  unfold arrHandleElement at h
  split at h
  · split at h
    · simp at h
    · split at h
      · cases h
        exact ⟨h1, h2⟩
      · simp at h
  · split at h
    · simp at h
    · cases h
      refine ⟨?_, ?_⟩
      · dsimp only
        split
        · rename_i hc
          have hz : st.elements = [] := List.length_eq_zero.mp (by omega)
          rw [hz]
          rfl
        · rename_i hc
          cases hel : st.elements with
          | nil =>
            rw [hel] at h2
            simp at h2
            omega
          | cons x xs =>
            rw [hel] at h1
            simpa using h1
      · dsimp only
        simp [h2]

theorem arrLoop_inv (fuel : Nat) :
    ∀ (L : Lookup) (st : ArrSt) (ts : List Token) (st' : ArrSt) rest,
      arrLoop fuel L st ts = .ok (st', rest) → arrInv st → arrInv st' := by
  induction fuel with
  | zero =>
    intro L st ts st' rest h
    simp [arrLoop, fuelMsg] at h
  | succ fuel ih =>
    intro L st ts st' rest h hinv
    simp only [arrLoop] at h
    have hsemi : ∀ (c : Nat),
        arrInv { st with hasSemicolons := true, struct := st.struct ++ [.mk [] c] } :=
      fun _ => hinv
    split at h
    · split at h
      · exact ih L _ _ st' rest h (hsemi _)
      · cases h
        exact hsemi _
    · split at h
      · simp at h
      · rename_i el ts₁ hel
        split at h
        · simp at h
        · rename_i st₁ hhandle
          have hinv₁ : arrInv st₁ := arrHandleElement_inv st el st₁ hhandle hinv
          split at h
          · split at h
            · exact ih L _ _ st' rest h hinv₁
            · cases h
              exact hinv₁
          · split at h
            · split at h
              · simp at h
              · split at h
                · exact ih L _ _ st' rest h hinv₁
                · cases h
                  exact hinv₁
            · cases h
              exact hinv₁

/-- C5 (corrected): metadata with more than one non-metadata element fails
with the cannot-mix error, and metadata with at most one non-metadata
element yields WithMetadata over the first non-metadata element (or an
empty Array) — regardless of whether semicolons were also seen.  A `:=`
element parsed after a row separator errors, and a row separator
encountered after an element when metadata exists errors; but a semicolon
in element position (after `[` or a comma) records an empty row without
checking metadata, so the combination does not always error. -/
theorem c5_metadata :
    (∀ st : ArrSt, st.hasMetadata = true → st.nonMetadataCount > 1 →
      finishArrayCore (arrFinish st) =
        .error "Cannot mix array elements with metadata - use nested array syntax like [[1,2,3], key := value]") ∧
    (∀ st : ArrSt, st.hasMetadata = true → ¬(st.nonMetadataCount > 1) →
      finishArrayCore (arrFinish st) =
        .ok (.withMetadata (st.primaryElement.getD (.arrayN [])) st.metadataMap)) ∧
    (∀ (st : ArrSt) l r, st.hasSemicolons = true →
      arrHandleElement st (.binaryOperation ":=" l r) =
        .error "Cannot mix matrix/tensor syntax with metadata - use nested array syntax") ∧
    (∀ (st : ArrSt) e, isAssignB e = false → st.hasMetadata = true →
      arrHandleElement st e =
        .error "Cannot mix array elements with metadata - use nested array syntax like [[1,2,3], key := value]") ∧
    (∀ fuel L ts st rest, arrLoopTop fuel L ts = .ok (st, rest) →
      st.primaryElement = st.elements.head? ∧
      st.nonMetadataCount = st.elements.length) := by
  refine ⟨?_, ?_, ?_, ?_, ?_⟩
  · intro st h1 h2
    unfold arrFinish
    split <;> simp [finishArrayCore, h1, h2]
  · intro st h1 h2
    unfold arrFinish
    split <;> simp [finishArrayCore, h1, h2]
  · intro st l r h
    simp [arrHandleElement, h]
  · intro st e he h
    unfold arrHandleElement
    split
    · rename_i l r
      simp [isAssignB] at he
    · simp [h]
  · intro fuel L ts st rest h
    match fuel with
    | 0 => simp [arrLoopTop, fuelMsg] at h
    | fuel + 1 =>
      simp only [arrLoopTop] at h
      split at h
      · exact arrLoop_inv fuel L {} ts st rest h ⟨rfl, rfl⟩
      · cases h
        exact ⟨rfl, rfl⟩

/-- Closed instance of the amended C5 on the `[a := 1, ;]` state. -/
theorem c5_witness :
    finishArrayCore (arrFinish c5St) =
      .ok (.withMetadata (c5St.primaryElement.getD (.arrayN [])) c5St.metadataMap) ∧
    (c5St.primaryElement = c5St.elements.head? ∧
      c5St.nonMetadataCount = c5St.elements.length) :=
  ⟨c5_metadata.2.1 c5St rfl (by decide),
   c5_metadata.2.2.2.2 20 defLookup
     [idUT "a", symT ":=", numT "1", symT ",", symT ";", symT "]"]
     c5St [symT "]"] rfl⟩

/-! ## C6: embedded-language header colon -/

/-- C6 counterexample: `a:b(c):d` does not begin with `(`, so by the claim
the header colon should be the first `:` (index 1, header `a`, body
`b(c):d`); the code instead locates the first `(` anywhere, matches its `)`
and takes the first `:` after it, giving header `a:b(c)` and body `d`. -/
theorem c6_counterexample :
    parseEmbeddedLanguage "a:b(c):d".toList =
      .ok (.embeddedLanguage (some "a:b") (some "c") "d") := by
  rfl

/-- C6 (amended): the header colon is found via the FIRST `(` anywhere in
the content (not only a leading one): when that `(` has a matching `)`
followed by a `:`, the header colon is the first `:` after the matching
`)`; otherwise (no `(`, unmatched `(`, or no `:` after it) it is the first
`:` of the content.  Header = content before the colon, trimmed; body =
content after it, verbatim. -/
theorem c6_embedded_header :
    (∀ (cs : List Char) i, headerColonFromParens cs = some i →
      ∃ ps pe k, cs.findIdx? (· = '(') = some ps ∧ parenMatchIdx cs ps = some pe ∧
        (cs.drop (pe + 1)).findIdx? (· = ':') = some k ∧ i = pe + 1 + k) ∧
    (∀ cs : List Char, headerColonFromParens cs = none →
      headerColonIdx cs = (cs.findIdx? (· = ':')).getD 0) ∧
    (∀ (cs : List Char) lang ctx body,
      ¬(cs.head? = some ':') → (cs.findIdx? (· = ':')).isSome →
      parseEmbeddedLanguage cs = .ok (.embeddedLanguage lang ctx body) →
      body = String.mk (cs.drop (headerColonIdx cs + 1)) ∧
      parseHeader (jsTrim (cs.take (headerColonIdx cs))) = .ok (lang, ctx)) := by
  refine ⟨?_, ?_, ?_⟩
  · intro cs i h
    unfold headerColonFromParens at h
    split at h
    · simp at h
    · rename_i ps hps
      split at h
      · simp at h
      · rename_i pe hpe
        split at h
        · rename_i k hk
          cases h
          exact ⟨ps, pe, k, hps, hpe, hk, rfl⟩
        · simp at h
  · intro cs h
    unfold headerColonIdx
    rw [h]
  · intro cs lang ctx body h1 h2 hp
    unfold parseEmbeddedLanguage at hp
    rw [if_neg (fun hor => by
      rcases hor with hc | hn
      · exact h1 hc
      · rw [Option.isNone_iff_eq_none] at hn
        rw [hn] at h2
        simp at h2)] at hp
    dsimp only at hp
    split at hp
    · simp at hp
    · rename_i l c heq
      injection hp with hnode
      injection hnode with e1 e2 e3
      subst e1
      subst e2
      exact ⟨e3.symm, heq⟩

/-- Closed instance of the amended C6 on `P(x):y`. -/
theorem c6_witness :
    ("y" : String) = String.mk ("P(x):y".toList.drop (headerColonIdx "P(x):y".toList + 1)) ∧
    parseHeader (jsTrim ("P(x):y".toList.take (headerColonIdx "P(x):y".toList))) =
      .ok (some "P", some "x") :=
  c6_embedded_header.2.2 "P(x):y".toList (some "P") (some "x") "y"
    (by decide) (by decide) rfl

/-! ## C8: the multiple-parenthetical-groups error is unreachable -/

/-- C8 counterexample: the header of `a(b)(c):x` contains a `(` whose
matching `)` is followed by another `(`, yet parsing fails with the
invalid-header-format error, not the multiple-parenthetical-groups error. -/
theorem c8_counterexample :
    parseEmbeddedLanguage "a(b)(c):x".toList =
      .error "Invalid embedded language header format. Expected: LANGUAGE(CONTEXT):BODY" := by
  rfl

/-- C8 (amended): a header whose first `(` has a matching `)` followed later
by another `(` always fails with the invalid-header-format error — the `)`
is then not the final character, and that check fires before the
multiple-parenthetical-groups check, which is unreachable. -/
theorem c8_header_groups :
    ∀ (hdr : List Char) ps pe j,
      hdr.findIdx? (· = '(') = some ps →
      parenMatchIdx hdr ps = some pe →
      pe < j → j < hdr.length → hdr.get? j = some '(' →
      parseHeader hdr =
        .error "Invalid embedded language header format. Expected: LANGUAGE(CONTEXT):BODY" := by
  intro hdr ps pe j h1 h2 h3 h4 _h5
  simp only [parseHeader, h1, h2]
  rw [if_neg (by simp)]
  rw [if_pos (by omega)]

/-- Closed instance of the amended C8 on the header `a(b)(c)`. -/
theorem c8_witness :
    parseHeader "a(b)(c)".toList =
      .error "Invalid embedded language header format. Expected: LANGUAGE(CONTEXT):BODY" :=
  c8_header_groups "a(b)(c)".toList 1 3 4 (by decide) (by decide)
    (by decide) (by decide) (by decide)

/-! ## C10: Statement nodes occur only at top level -/


theorem noStmtL_append (a b : List Node) : noStmtL (a ++ b) = (noStmtL a && noStmtL b) := by
  induction a with
  | nil => simp [noStmtL]
  | cons x xs ih => simp [noStmtL, ih, Bool.and_assoc]

theorem noStmtT_append (a b : List TEntry) : noStmtT (a ++ b) = (noStmtT a && noStmtT b) := by
  induction a with
  | nil => simp [noStmtT]
  | cons x xs ih =>
    cases x
    simp [noStmtT, ih, Bool.and_assoc]

theorem noStmtKV_append (a b : List (String × Node)) :
    noStmtKV (a ++ b) = (noStmtKV a && noStmtKV b) := by
  induction a with
  | nil => simp [noStmtKV]
  | cons x xs ih =>
    cases x
    simp [noStmtKV, ih, Bool.and_assoc]

theorem noStmtPL_append (a b : List Param) :
    noStmtPL (a ++ b) = (noStmtPL a && noStmtPL b) := by
  induction a with
  | nil => simp [noStmtPL]
  | cons x xs ih =>
    cases x
    simp [noStmtPL, ih, Bool.and_assoc]

theorem noStmtKV_map_insert (xs : List (String × Node)) (k : String) (v : Node)
    (hl : noStmtKV xs = true) (hv : noStmt v = true) :
    noStmtKV (xs.map (fun p => if p.1 = k then (k, v) else p)) = true := by
  induction xs with
  | nil => rfl
  | cons x xs ih =>
    cases x with
    | mk k' v' =>
      simp only [noStmtKV, Bool.and_eq_true] at hl
      simp only [List.map_cons]
      by_cases hk : k' = k
      · simp only [hk, if_pos rfl]
        simp only [noStmtKV, Bool.and_eq_true]
        exact ⟨hv, ih hl.2⟩
      · rw [if_neg hk]
        simp only [noStmtKV, Bool.and_eq_true]
        exact ⟨hl.1, ih hl.2⟩

theorem noStmtKV_insertKV (l : List (String × Node)) (k : String) (v : Node)
    (hl : noStmtKV l = true) (hv : noStmt v = true) :
    noStmtKV (insertKV l k v) = true := by
  unfold insertKV
  split
  · exact noStmtKV_map_insert l k v hl hv
  · rw [noStmtKV_append]
    simp [noStmtKV, hl, hv]

theorem noStmtPL_tupleParams (es : List Node) : noStmtPL (tupleParams es) = true := by
  induction es with
  | nil => rfl
  | cons e es ih =>
    unfold tupleParams at ih ⊢
    rw [List.filterMap_cons]
    split
    · exact ih
    · rename_i p hp
      split at hp
      · cases hp
        simpa [noStmtPL, noStmtOD] using ih
      · simp at hp

theorem lowerArrow_clean (l r : Node) (hl : noStmt l = true) (hr : noStmt r = true) :
    noStmt (lowerArrow l r) = true := by
  cases l with
  | grouping e =>
    cases e
    case binaryOperation op a c =>
      by_cases hop : op = "?"
      · subst hop
        simp_all [lowerArrow, noStmt, noStmtP, noStmtPL, noStmtL, noStmtKV, noStmtOD]
      · simp_all [lowerArrow, hop, noStmt, noStmtP, noStmtPL, noStmtL, noStmtKV, noStmtOD,
          emptyParams]
    all_goals
      simp_all [lowerArrow, noStmt, noStmtP, noStmtPL, noStmtL, noStmtKV, noStmtOD,
        emptyParams]
  | tuple es =>
    simp [lowerArrow, noStmt, noStmtP, noStmtPL, noStmtPL_tupleParams, noStmtL, noStmtKV, hr]
  | _ =>
    simp_all [lowerArrow, noStmt]

theorem legacyParams_clean (l : Node) (hl : noStmt l = true) :
    noStmtP (legacyParams l) = true := by
  cases l with
  | grouping e =>
    cases e
    case binaryOperation op a c =>
      by_cases hop : op = "?"
      · subst hop
        simp_all [legacyParams, noStmt, noStmtP, noStmtPL, noStmtL, noStmtKV, noStmtOD]
      · simp_all [legacyParams, hop, noStmt, noStmtP, noStmtPL, noStmtL, noStmtKV, noStmtOD,
          emptyParams]
    all_goals
      simp_all [legacyParams, noStmt, noStmtP, noStmtPL, noStmtL, noStmtKV, noStmtOD,
        emptyParams]
  | _ =>
    simp_all [legacyParams, noStmt, noStmtP, noStmtPL, noStmtL, noStmtKV, emptyParams]

theorem toPattern_clean (e : Node) (p : Pattern) (hp : toPattern e = some p)
    (he : noStmt e = true) : (noStmtP p.parameters && noStmt p.body) = true := by
  cases e
  case functionLambda ps b =>
    rw [show toPattern (.functionLambda ps b) = some (.mk ps b) from rfl] at hp
    cases hp
    simpa [noStmt, Pattern.parameters, Pattern.body] using he
  case binaryOperation op l r =>
    by_cases hop : op = "->"
    · subst hop
      rw [show toPattern (.binaryOperation "->" l r) = some (.mk (legacyParams l) r)
        from rfl] at hp
      cases hp
      simp only [noStmt, Bool.and_eq_true] at he
      simp [Pattern.parameters, Pattern.body, legacyParams_clean l he.1, he.2]
    · simp [toPattern, hop] at hp
  all_goals simp [toPattern] at hp

theorem noStmtPats_filterMap (es : List Node) (h : noStmtL es = true) :
    noStmtPats (es.filterMap toPattern) = true := by
  induction es with
  | nil => rfl
  | cons e es ih =>
    simp only [noStmtL, Bool.and_eq_true] at h
    rw [List.filterMap_cons]
    split
    · exact ih h.2
    · rename_i p hp
      cases p with
      | mk ps b =>
        have := toPattern_clean e ⟨ps, b⟩ hp h.1
        simp only [Pattern.parameters, Pattern.body, Bool.and_eq_true] at this
        simp [noStmtPats, this.1, this.2, ih h.2]

theorem selectRaw_clean (r : Node) (h : noStmt r = true) :
    noStmtL (selectRaw r).1 = true ∧ noStmtKV (selectRaw r).2 = true := by
  cases r with
  | arrayN es => simpa [selectRaw, noStmtKV, noStmt] using h
  | withMetadata p md =>
    cases p with
    | arrayN es =>
      simp only [noStmt, Bool.and_eq_true] at h
      cases es with
      | nil => simpa [selectRaw, noStmtL] using h.2
      | cons e rest =>
        cases e <;>
          simp_all [selectRaw, noStmt, noStmtL]
    | _ =>
      refine ⟨?_, rfl⟩
      simp only [selectRaw, noStmtL, Bool.and_true]
      simpa [noStmt] using h
  | _ =>
    constructor <;> simp_all [selectRaw, noStmtL, noStmtKV, noStmt]

theorem parseParameterFromArg_clean (arg : Node) (h : noStmt arg = true) :
    noStmtOD (parseParameterFromArg arg).1.defaultValue = true ∧
    noStmtOD (parseParameterFromArg arg).2 = true := by
  cases arg
  case binaryOperation op l r =>
    simp only [noStmt, Bool.and_eq_true] at h
    by_cases hop : op = ":="
    · subst hop
      cases r <;>
        first
        | (simp_all [parseParameterFromArg, noStmtOD, Param.defaultValue, noStmt]; done)
        | (rename_i op2 v c
           simp only [noStmt, Bool.and_eq_true] at h
           by_cases hop2 : op2 = "?"
           · subst hop2
             simp [parseParameterFromArg, noStmtOD, Param.defaultValue, h.2.1, h.2.2]
           · simp_all [parseParameterFromArg, hop2, noStmtOD, Param.defaultValue, noStmt])
    · by_cases hop3 : op = "?"
      · subst hop3
        simp [parseParameterFromArg, noStmtOD, Param.defaultValue, h.2]
      · simp [parseParameterFromArg, hop, hop3, noStmtOD, Param.defaultValue]
  all_goals simp [parseParameterFromArg, noStmtOD, Param.defaultValue]

theorem convertPosFold_clean (l : List Node) :
    ∀ (accP : List Param) (accC : List Node),
      noStmtL l = true → noStmtPL accP = true → noStmtL accC = true →
      noStmtPL (l.foldl convertPosStep (accP, accC)).1 = true ∧
      noStmtL (l.foldl convertPosStep (accP, accC)).2 = true := by
  induction l with
  | nil => intro accP accC _ hP hC; exact ⟨hP, hC⟩
  | cons a l ih =>
    intro accP accC hl hP hC
    simp only [noStmtL, Bool.and_eq_true] at hl
    obtain ⟨h1, h2⟩ := parseParameterFromArg_clean a hl.1
    rw [List.foldl_cons]
    rcases hp : parseParameterFromArg a with ⟨⟨nm, dv⟩, cc⟩
    rw [hp] at h1 h2
    simp only [Param.defaultValue] at h1
    have hP' : noStmtPL (accP ++ [Param.mk nm dv]) = true := by
      rw [noStmtPL_append, hP]
      simp [noStmtPL, h1]
    cases cc with
    | none =>
      have hstep : convertPosStep (accP, accC) a = (accP ++ [Param.mk nm dv], accC) := by
        unfold convertPosStep
        rw [hp]
      rw [hstep]
      exact ih _ _ hl.2 hP' hC
    | some cond =>
      simp only [noStmtOD] at h2
      have hstep : convertPosStep (accP, accC) a =
          (accP ++ [Param.mk nm dv], accC ++ [cond]) := by
        unfold convertPosStep
        rw [hp]
      rw [hstep]
      refine ih _ _ hl.2 hP' ?_
      rw [noStmtL_append, hC]
      simp [noStmtL, h2]

theorem convertKwFold_clean (l : List (String × Node)) :
    ∀ (accP : List Param) (accC : List Node),
      noStmtKV l = true → noStmtPL accP = true → noStmtL accC = true →
      noStmtPL (l.foldl convertKwStep (accP, accC)).1 = true ∧
      noStmtL (l.foldl convertKwStep (accP, accC)).2 = true := by
  induction l with
  | nil => intro accP accC _ hP hC; exact ⟨hP, hC⟩
  | cons a l ih =>
    intro accP accC hl hP hC
    cases a with
    | mk k v =>
      simp only [noStmtKV, Bool.and_eq_true] at hl
      rw [List.foldl_cons]
      cases v <;>
        first
        | (exact ih _ _ hl.2
            (by rw [noStmtPL_append, hP]; simp_all [noStmtPL, noStmtOD]) hC)
        | (rename_i op2 v' c
           by_cases hop2 : op2 = "?"
           · subst hop2
             simp only [noStmt, Bool.and_eq_true] at hl
             have hstep : convertKwStep (accP, accC) (k, .binaryOperation "?" v' c) =
                 (accP ++ [.mk (some k) (some v')], accC ++ [c]) := rfl
             rw [hstep]
             refine ih _ _ hl.2 ?_ ?_
             · rw [noStmtPL_append, hP]
               simp [noStmtPL, noStmtOD, hl.1.1]
             · rw [noStmtL_append, hC]
               simp [noStmtL, hl.1.2]
           · have hstep : convertKwStep (accP, accC) (k, .binaryOperation op2 v' c) =
                 (accP ++ [.mk (some k) (some (.binaryOperation op2 v' c))], accC) := by
               simp [convertKwStep, hop2]
             rw [hstep]
             refine ih _ _ hl.2 ?_ hC
             rw [noStmtPL_append, hP]
             simp [noStmtPL, noStmtOD, hl.1])

theorem convertArgsToParams_clean (args : CallArgs) (h : noStmtArgs args = true) :
    noStmtP (convertArgsToParams args) = true := by
  cases args with
  | mk pos kw =>
    simp only [noStmtArgs, Bool.and_eq_true] at h
    obtain ⟨h1, h2⟩ := convertPosFold_clean pos [] [] h.1 rfl rfl
    obtain ⟨h3, h4⟩ :=
      convertKwFold_clean kw [] (pos.foldl convertPosStep ([], [])).2 h.2 rfl h2
    simp only [convertArgsToParams]
    simp [noStmtP, noStmtKV, CallArgs.positional, CallArgs.keyword, h1, h3, h4]

theorem lowerFunctionDefinition_clean (l r : Node)
    (hl : noStmt l = true) (hr : noStmt r = true) :
    noStmt (lowerFunctionDefinition l r) = true := by
  cases l <;>
    simp_all [lowerFunctionDefinition, noStmt, noStmtP, noStmtPL, noStmtL, noStmtKV]
  case functionCall f args =>
    exact convertArgsToParams_clean args hl.2

theorem lowerPatternMatch_clean (l r : Node)
    (hl : noStmt l = true) (hr : noStmt r = true) :
    noStmt (lowerPatternMatch l r) = true := by
  obtain ⟨hra, hrm⟩ := selectRaw_clean r hr
  have hpats : noStmtPats (lowerPatterns r) = true :=
    noStmtPats_filterMap _ hra
  cases l <;>
    simp_all [lowerPatternMatch, lowerPatterns, noStmt, noStmtP, noStmtPL, noStmtL,
      noStmtKV, emptyParams]
  case functionCall f args =>
    exact convertArgsToParams_clean args hl.2

theorem parseEmbeddedLanguage_clean (cs : List Char) (n : Node)
    (h : parseEmbeddedLanguage cs = .ok n) : noStmt n = true := by
  unfold parseEmbeddedLanguage at h
  split at h
  · cases h
    rfl
  · dsimp only at h
    split at h
    · simp at h
    · cases h
      rfl

theorem noStmtLL_map_row (st : List TEntry) (h : noStmtT st = true) :
    noStmtLL (st.map TEntry.row) = true := by
  induction st with
  | nil => rfl
  | cons e rest ih =>
    cases e with
    | mk row lvl =>
      simp only [noStmtT, Bool.and_eq_true] at h
      simp [noStmtLL, TEntry.row, h.1, ih h.2]

theorem buildMatrixTensor_clean (st : List TEntry) (h : noStmtT st = true) :
    noStmt (buildMatrixTensor st) = true := by
  unfold buildMatrixTensor
  split
  · simp [noStmt, noStmtLL_map_row st h]
  · simpa [noStmt] using h

theorem arrFinish_clean (st : ArrSt) (h : arrStClean st = true) :
    arrStClean (arrFinish st) = true := by
  simp only [arrStClean, Bool.and_eq_true] at h
  unfold arrFinish
  split
  · simp only [arrStClean, Bool.and_eq_true]
    refine ⟨⟨⟨⟨h.1.1.1.1, h.1.1.1.2⟩, h.1.1.2⟩, ?_⟩, h.2⟩
    rw [noStmtT_append, h.1.2]
    simp [noStmtT, h.2]
  · simp only [arrStClean, Bool.and_eq_true]
    exact h

theorem finishArrayCore_clean (st : ArrSt) (n : Node)
    (hst : arrStClean st = true) (h : finishArrayCore st = .ok n) :
    noStmt n = true := by
  simp only [arrStClean, Bool.and_eq_true] at hst
  unfold finishArrayCore at h
  split at h
  · simp at h
  · split at h
    · cases h
      simp only [noStmt, Bool.and_eq_true]
      refine ⟨?_, hst.1.1.2⟩
      cases hp : st.primaryElement with
      | none => rfl
      | some p =>
        rw [hp] at hst
        simpa [noStmtOD] using hst.1.1.1.2
    · split at h
      · cases h
        exact buildMatrixTensor_clean _ hst.1.2
      · cases h
        simpa [noStmt] using hst.1.1.1.1

theorem arrHandleElement_clean (st : ArrSt) (el : Node) (st' : ArrSt)
    (hst : arrStClean st = true) (hel : noStmt el = true)
    (h : arrHandleElement st el = .ok st') : arrStClean st' = true := by
  simp only [arrStClean, Bool.and_eq_true] at hst
  unfold arrHandleElement at h
  split at h
  · rename_i l r
    split at h
    · simp at h
    · split at h
      · rename_i k hk
        cases h
        simp only [arrStClean, Bool.and_eq_true]
        simp only [noStmt, Bool.and_eq_true] at hel
        exact ⟨⟨⟨⟨hst.1.1.1.1, hst.1.1.1.2⟩,
          noStmtKV_insertKV _ k r hst.1.1.2 hel.2⟩, hst.1.2⟩, hst.2⟩
      · simp at h
  · split at h
    · simp at h
    · cases h
      simp only [arrStClean, Bool.and_eq_true]
      refine ⟨⟨⟨⟨?_, ?_⟩, hst.1.1.2⟩, hst.1.2⟩, ?_⟩
      · rw [noStmtL_append, hst.1.1.1.1]
        simp [noStmtL, hel]
      · dsimp only
        split
        · simpa [noStmtOD] using hel
        · exact hst.1.1.1.2
      · rw [noStmtL_append, hst.2]
        simp [noStmtL, hel]

theorem braceClassify_clean (elems : List Node) (hA hE hS : Bool) (n : Node)
    (hel : noStmtL elems = true) (h : braceClassify elems hA hE hS = .ok n) :
    noStmt n = true := by
  unfold braceClassify at h
  split at h
  · split at h
    · simp at h
    · split at h
      · simp at h
      · split at h
        · cases h
          simpa [noStmt] using hel
        · simp at h
  · split at h
    · split at h
      · cases h
        simpa [noStmt] using hel
      · simp at h
    · cases h
      simpa [noStmt] using hel


theorem cleanAll_zero : CleanAll 0 := by
  constructor <;>
    (intros
     simp_all [parseExpression, parseInfixLoop, parsePrefix, parseInfix, parseGrouping,
       parseTupleElements, tupleLoop, parseArray, parseMatrixOrArray, arrLoopTop,
       arrLoop, parseBraceContainer, braceLoopTop, braceLoop, parseCodeBlock, codeLoop,
       parseUnaryOperator, parseDerivative, parseIntegral, parseCalculusParens,
       calcLoop, parseFunctionParameters, paramLoop, parseFunctionParameter,
       parseFunctionCallArgs, callArgsLoop, fuelMsg])

theorem cleanStep_pExpr (fuel : Nat) (ih : CleanAll fuel) :
    ∀ L minPrec ts n rest,
      parseExpression (fuel + 1) L minPrec ts = .ok (n, rest) → noStmt n = true := by
  intro L minPrec ts n rest h
  simp only [parseExpression] at h
  split at h
  · simp at h
  · rename_i left ts₁ hpre
    exact ih.pLoop L minPrec left ts₁ n rest h (ih.pPre L ts left ts₁ hpre)

theorem cleanStep_pLoop (fuel : Nat) (ih : CleanAll fuel) :
    ∀ L minPrec left ts n rest,
      parseInfixLoop (fuel + 1) L minPrec left ts = .ok (n, rest) →
      noStmt left = true → noStmt n = true := by
  intro L minPrec left ts n rest h hleft
  simp only [parseInfixLoop] at h
  split at h
  · cases h
    exact hleft
  · split at h
    · cases h
      exact hleft
    · split at h
      · cases h
        exact hleft
      · split at h
        · split at h
          · simp at h
          · rename_i left' ts' hinf
            exact ih.pLoop L minPrec left' ts' n rest h
              (ih.pInf L left _ ts left' ts' hinf hleft)
        · split at h
          · split at h
            · simp at h
            · rename_i left' ts' hder
              exact ih.pLoop L minPrec left' ts' n rest h
                (ih.pDeriv L left ts left' ts' hder hleft)
          · split at h
            · cases h
              exact hleft
            · split at h
              · cases h
                exact hleft
              · split at h
                · simp at h
                · rename_i left' ts' hinf
                  exact ih.pLoop L minPrec left' ts' n rest h
                    (ih.pInf L left _ ts left' ts' hinf hleft)

theorem cleanStep_pPre (fuel : Nat) (ih : CleanAll fuel) :
    ∀ L ts n rest, parsePrefix (fuel + 1) L ts = .ok (n, rest) → noStmt n = true := by
  intro L ts n rest h
  simp only [parsePrefix] at h
  split at h
  · cases h
    rfl
  · split at h
    · split at h
      · simp at h
      · rename_i n' hemb
        cases h
        exact parseEmbeddedLanguage_clean _ _ hemb
    · cases h
      rfl
  · split at h <;> (cases h; rfl)
  · cases h
    rfl
  · split at h
    · exact ih.pGroup L ts n rest h
    · split at h
      · exact ih.pArr L ts n rest h
      · split at h
        · exact ih.pBrace L ts n rest h
        · split at h
          · exact ih.pCode L ts n rest h
          · split at h
            · exact ih.pUn L ts n rest h
            · split at h
              · exact ih.pInt L ts n rest h
              · split at h
                · cases h
                  rfl
                · simp at h
  · simp at h
  · simp at h

theorem cleanStep_pUn (fuel : Nat) (ih : CleanAll fuel) :
    ∀ L ts n rest,
      parseUnaryOperator (fuel + 1) L ts = .ok (n, rest) → noStmt n = true := by
  intro L ts n rest h
  simp only [parseUnaryOperator] at h
  split at h
  · simp at h
  · rename_i operand ts₂ hop
    cases h
    simpa [noStmt] using ih.pExpr _ _ _ _ _ hop

theorem cleanStep_pGroup (fuel : Nat) (ih : CleanAll fuel) :
    ∀ L ts n rest, parseGrouping (fuel + 1) L ts = .ok (n, rest) → noStmt n = true := by
  intro L ts n rest h
  simp only [parseGrouping] at h
  split at h
  · cases h
    rfl
  · try dsimp only at h
    split at h
    · simp at h
    · rename_i n' ts₂ heq
      split at h
      · simp at h
      · cases h
        split at heq
        · split at heq
          · simp at heq
          · rename_i ps ts₃ hps
            cases heq
            simpa [noStmt] using ih.pFPs _ _ _ _ hps
        · split at heq
          · split at heq
            · simp at heq
            · rename_i es ts₃ hes
              cases heq
              simpa [noStmt] using ih.pTupEls _ _ _ _ hes
          · split at heq
            · simp at heq
            · rename_i e ts₃ he
              cases heq
              simpa [noStmt] using ih.pExpr _ _ _ _ _ he

theorem cleanStep_pTupEls (fuel : Nat) (ih : CleanAll fuel) :
    ∀ L ts es rest,
      parseTupleElements (fuel + 1) L ts = .ok (es, rest) → noStmtL es = true := by
  intro L ts es rest h
  simp only [parseTupleElements] at h
  split at h
  · simp at h
  · rename_i e ts₁ he
    refine ih.pTupLoop L [e] ts₁ es rest h ?_
    simp [noStmtL, ih.pExpr L 0 ts e ts₁ he]

theorem cleanStep_pTupLoop (fuel : Nat) (ih : CleanAll fuel) :
    ∀ L acc ts es rest,
      tupleLoop (fuel + 1) L acc ts = .ok (es, rest) →
      noStmtL acc = true → noStmtL es = true := by
  intro L acc ts es rest h hacc
  simp only [tupleLoop] at h
  split at h
  · split at h
    · simp at h
    · split at h
      · cases h
        exact hacc
      · split at h
        · simp at h
        · rename_i e ts₂ he
          refine ih.pTupLoop L (acc ++ [e]) ts₂ es rest h ?_
          rw [noStmtL_append, hacc]
          simp [noStmtL, ih.pExpr L 0 _ e ts₂ he]
  · cases h
    exact hacc

theorem mkInfixNode_clean (opv : String) (l r : Node)
    (hl : noStmt l = true) (hr : noStmt r = true) :
    noStmt (mkInfixNode opv l r) = true := by
  unfold mkInfixNode
  split
  · exact lowerFunctionDefinition_clean l r hl hr
  · split
    · exact lowerPatternMatch_clean l r hl hr
    · split
      · exact lowerArrow_clean l r hl hr
      · split
        · simp [noStmt, hl, hr]
        · split
          · simp [noStmt, hl, hr]
          · split
            · simp [noStmt, hl, hr]
            · split
              · simp [noStmt, hl, hr]
              · split
                · simp [noStmt, hl, hr]
                · simp [noStmt, hl, hr]

theorem cleanStep_pInf (fuel : Nat) (ih : CleanAll fuel) :
    ∀ L left info ts n rest,
      parseInfix (fuel + 1) L left info ts = .ok (n, rest) →
      noStmt left = true → noStmt n = true := by
  intro L left info ts n rest h hleft
  unfold parseInfix at h
  dsimp only at h
  by_cases hcall : (cur ts).value = "(" ∧ isIdentNode left = true
  · rw [if_pos hcall] at h
    split at h
    · exact Except.noConfusion h
    · rename_i args ts₂ hargs
      split at h
      · exact Except.noConfusion h
      · cases h
        simp [noStmt, hleft, ih.pCArgs _ _ _ _ hargs]
  · rw [if_neg hcall] at h
    by_cases hacc : (cur ts).value = "[" ∧ info.stype = "postfix"
    · rw [if_pos hacc] at h
      split at h
      · exact Except.noConfusion h
      · rename_i r ts₂ hr
        split at h
        · exact Except.noConfusion h
        · cases h
          simp [noStmt, hleft, ih.pExpr _ _ _ _ _ hr]
    · rw [if_neg hacc] at h
      split at h
      · exact Except.noConfusion h
      · rename_i r ts₂ hr
        cases h
        exact mkInfixNode_clean _ left r hleft (ih.pExpr _ _ _ _ _ hr)

theorem cleanStep_pArr (fuel : Nat) (ih : CleanAll fuel) :
    ∀ L ts n rest, parseArray (fuel + 1) L ts = .ok (n, rest) → noStmt n = true := by
  intro L ts n rest h
  simp only [parseArray] at h
  split at h
  · simp at h
  · rename_i n' ts₂ hmat
    split at h
    · simp at h
    · cases h
      exact ih.pMatArr _ _ _ _ hmat

theorem cleanStep_pMatArr (fuel : Nat) (ih : CleanAll fuel) :
    ∀ L ts n rest,
      parseMatrixOrArray (fuel + 1) L ts = .ok (n, rest) → noStmt n = true := by
  intro L ts n rest h
  simp only [parseMatrixOrArray] at h
  split at h
  · simp at h
  · rename_i st ts₁ htop
    split at h
    · simp at h
    · rename_i n' hfin
      cases h
      exact finishArrayCore_clean _ _
        (arrFinish_clean _ (ih.pArrTop _ _ _ _ htop)) hfin

theorem cleanStep_pArrTop (fuel : Nat) (ih : CleanAll fuel) :
    ∀ L ts st rest,
      arrLoopTop (fuel + 1) L ts = .ok (st, rest) → arrStClean st = true := by
  intro L ts st rest h
  simp only [arrLoopTop] at h
  split at h
  · exact ih.pArrLoop _ _ _ _ _ h rfl
  · cases h
    rfl

theorem cleanStep_pArrLoop (fuel : Nat) (ih : CleanAll fuel) :
    ∀ L st ts st' rest,
      arrLoop (fuel + 1) L st ts = .ok (st', rest) →
      arrStClean st = true → arrStClean st' = true := by
  intro L st ts st' rest h hst
  simp only [arrLoop] at h
  have hpush : ∀ (row : List Node) (c : Nat) (base : ArrSt),
      arrStClean base = true → noStmtL row = true →
      noStmtT (base.struct ++ [.mk row c]) = true := by
    intro row c base hb hr
    simp only [arrStClean, Bool.and_eq_true] at hb
    rw [noStmtT_append, hb.1.2]
    simp [noStmtT, hr]
  split at h
  · have hst₁ : arrStClean { st with
        hasSemicolons := true
        struct := st.struct ++ [.mk [] (consumeSemis ts).1] } = true := by
      simp only [arrStClean, Bool.and_eq_true] at hst ⊢
      exact ⟨⟨⟨⟨hst.1.1.1.1, hst.1.1.1.2⟩, hst.1.1.2⟩,
        hpush [] _ st (by simp [arrStClean, hst.1.1.1.1, hst.1.1.1.2, hst.1.1.2,
          hst.1.2, hst.2]) rfl⟩, hst.2⟩
    split at h
    · exact ih.pArrLoop _ _ _ _ _ h hst₁
    · cases h
      exact hst₁
  · split at h
    · simp at h
    · rename_i el ts₁ hel
      split at h
      · simp at h
      · rename_i st₁ hhandle
        have hst₁ : arrStClean st₁ = true :=
          arrHandleElement_clean st el st₁ hst (ih.pExpr _ _ _ _ _ hel) hhandle
        split at h
        · split at h
          · exact ih.pArrLoop _ _ _ _ _ h hst₁
          · cases h
            exact hst₁
        · split at h
          · split at h
            · simp at h
            · have hst₂ : arrStClean { st₁ with
                  hasSemicolons := true
                  struct := st₁.struct ++ [.mk st₁.currentRow (consumeSemis ts₁).1]
                  currentRow := [] } = true := by
                simp only [arrStClean, Bool.and_eq_true] at hst₁ ⊢
                exact ⟨⟨⟨⟨hst₁.1.1.1.1, hst₁.1.1.1.2⟩, hst₁.1.1.2⟩,
                  hpush st₁.currentRow _ st₁ (by simp [arrStClean, hst₁.1.1.1.1,
                    hst₁.1.1.1.2, hst₁.1.1.2, hst₁.1.2, hst₁.2]) hst₁.2⟩, rfl⟩
              split at h
              · exact ih.pArrLoop _ _ _ _ _ h hst₂
              · cases h
                exact hst₂
          · cases h
            exact hst₁

theorem cleanStep_pBrace (fuel : Nat) (ih : CleanAll fuel) :
    ∀ L ts n rest,
      parseBraceContainer (fuel + 1) L ts = .ok (n, rest) → noStmt n = true := by
  intro L ts n rest h
  unfold parseBraceContainer at h
  split at h
  · exact Except.noConfusion h
  · rename_i elems hA hE hS ts₂ htop
    split at h
    · exact Except.noConfusion h
    · split at h
      · exact Except.noConfusion h
      · rename_i n' hcls
        cases h
        exact braceClassify_clean _ _ _ _ _ (ih.pBraceTop _ _ _ _ htop) hcls

theorem cleanStep_pBraceTop (fuel : Nat) (ih : CleanAll fuel) :
    ∀ L ts out rest,
      braceLoopTop (fuel + 1) L ts = .ok (out, rest) → noStmtL out.1 = true := by
  intro L ts out rest h
  unfold braceLoopTop at h
  split at h
  · exact ih.pBraceLoop _ _ _ _ _ _ _ _ h rfl
  · cases h
    rfl

theorem cleanStep_pBraceLoop (fuel : Nat) (ih : CleanAll fuel) :
    ∀ L acc hA hE hS ts out rest,
      braceLoop (fuel + 1) L acc hA hE hS ts = .ok (out, rest) →
      noStmtL acc = true → noStmtL out.1 = true := by
  intro L acc hA hE hS ts out rest h hacc
  simp only [braceLoop] at h
  split at h
  · exact Except.noConfusion h
  · rename_i el ts₁ hel
    have hacc₁ : noStmtL (acc ++ [el]) = true := by
      rw [noStmtL_append, hacc]
      simp [noStmtL, ih.pExpr _ _ _ _ _ hel]
    split at h
    · exact Except.noConfusion h
    · split at h
      · split at h
        · exact ih.pBraceLoop _ _ _ _ _ _ _ _ h hacc₁
        · cases h
          exact hacc₁
      · split at h
        · split at h
          · exact ih.pBraceLoop _ _ _ _ _ _ _ _ h hacc₁
          · cases h
            exact hacc₁
        · cases h
          exact hacc₁

theorem cleanStep_pCode (fuel : Nat) (ih : CleanAll fuel) :
    ∀ L ts n rest,
      parseCodeBlock (fuel + 1) L ts = .ok (n, rest) → noStmt n = true := by
  intro L ts n rest h
  simp only [parseCodeBlock] at h
  split at h
  · exact Except.noConfusion h
  · rename_i stmts ts₂ hloop
    split at h
    · exact Except.noConfusion h
    · cases h
      have : noStmtL stmts = true := by
        split at hloop
        · exact ih.pCodeLoop _ _ _ _ _ hloop rfl
        · cases hloop
          rfl
      simpa [noStmt] using this

theorem cleanStep_pCodeLoop (fuel : Nat) (ih : CleanAll fuel) :
    ∀ L acc ts ss rest,
      codeLoop (fuel + 1) L acc ts = .ok (ss, rest) →
      noStmtL acc = true → noStmtL ss = true := by
  intro L acc ts ss rest h hacc
  simp only [codeLoop] at h
  split at h
  · exact Except.noConfusion h
  · rename_i stmt ts₁ hstmt
    have hacc₁ : noStmtL (acc ++ [stmt]) = true := by
      rw [noStmtL_append, hacc]
      simp [noStmtL, ih.pExpr _ _ _ _ _ hstmt]
    split at h
    · split at h
      · cases h
        exact hacc₁
      · split at h
        · cases h
          exact hacc₁
        · exact ih.pCodeLoop _ _ _ _ _ h hacc₁
    · split at h
      · cases h
        exact hacc₁
      · split at h
        · exact Except.noConfusion h
        · cases h
          exact hacc₁

theorem cleanStep_pDeriv (fuel : Nat) (ih : CleanAll fuel) :
    ∀ L left ts n rest,
      parseDerivative (fuel + 1) L left ts = .ok (n, rest) →
      noStmt left = true → noStmt n = true := by
  intro L left ts n rest h hleft
  simp only [parseDerivative] at h
  split at h
  · exact Except.noConfusion h
  · rename_i vars ts₃ hvars
    split at h
    · split at h
      · exact Except.noConfusion h
      · rename_i isEval content ts₄ hcalc
        have hcont : noStmtL content = true := ih.pCalc _ _ _ _ hcalc
        split at h
        · cases h
          simp [noStmt, noStmtO, hleft, hcont]
        · cases h
          simp [noStmt, noStmtO, hleft, hcont]
    · cases h
      simp [noStmt, noStmtO, hleft]

theorem cleanStep_pInt (fuel : Nat) (ih : CleanAll fuel) :
    ∀ L ts n rest,
      parseIntegral (fuel + 1) L ts = .ok (n, rest) → noStmt n = true := by
  intro L ts n rest h
  simp only [parseIntegral] at h
  have hfunc : ∀ t : Token, noStmt
      (if t.kind = some "System" then Node.systemIdentifier t.value (L t.value)
       else Node.userIdentifier t.value) = true := by
    intro t
    split <;> rfl
  split at h
  · split at h
    · exact Except.noConfusion h
    · rename_i vars ts₄ hvars
      split at h
      · split at h
        · exact Except.noConfusion h
        · rename_i isEval content ts₅ hcalc
          have hcont : noStmtL content = true := ih.pCalc _ _ _ _ hcalc
          split at h
          · cases h
            simp [noStmt, noStmtO, hfunc, hcont]
          · cases h
            simp [noStmt, noStmtO, hfunc, hcont]
      · cases h
        simp [noStmt, noStmtO, hfunc]
  · exact Except.noConfusion h

theorem cleanStep_pCalc (fuel : Nat) (ih : CleanAll fuel) :
    ∀ L ts out rest,
      parseCalculusParens (fuel + 1) L ts = .ok (out, rest) →
      noStmtL out.2 = true := by
  intro L ts out rest h
  unfold parseCalculusParens at h
  split at h
  · exact Except.noConfusion h
  · rename_i out' ts₂ hloop
    split at h
    · exact Except.noConfusion h
    · cases h
      exact ih.pCalcLoop _ _ _ _ _ _ hloop rfl

theorem cleanStep_pCalcLoop (fuel : Nat) (ih : CleanAll fuel) :
    ∀ L isEval acc ts out rest,
      calcLoop (fuel + 1) L isEval acc ts = .ok (out, rest) →
      noStmtL acc = true → noStmtL out.2 = true := by
  intro L isEval acc ts out rest h hacc
  simp only [calcLoop] at h
  split at h
  · cases h
    exact hacc
  · split at h
    · exact Except.noConfusion h
    · rename_i e ts₁ he
      have hacc₁ : noStmtL (acc ++ [e]) = true := by
        rw [noStmtL_append, hacc]
        simp [noStmtL, ih.pExpr _ _ _ _ _ he]
      split at h
      · exact ih.pCalcLoop _ _ _ _ _ _ h hacc₁
      · cases h
        exact hacc₁

theorem cleanStep_pFPs (fuel : Nat) (ih : CleanAll fuel) :
    ∀ L ts ps rest,
      parseFunctionParameters (fuel + 1) L ts = .ok (ps, rest) →
      noStmtP ps = true := by
  intro L ts ps rest h
  unfold parseFunctionParameters at h
  exact ih.pPLoop _ _ _ _ _ _ _ _ h rfl rfl rfl

theorem cleanStep_pFP (fuel : Nat) (ih : CleanAll fuel) :
    ∀ L isKw ts p rest,
      parseFunctionParameter (fuel + 1) L isKw ts = .ok (p, rest) →
      noStmtOD (Param.defaultValue p) = true := by
  intro L isKw ts p rest h
  simp only [parseFunctionParameter] at h
  split at h
  · split at h
    · exact Except.noConfusion h
    · rename_i dv ts₂ hdv
      split at h
      · exact Except.noConfusion h
      · cases h
        split at hdv
        · split at hdv
          · exact Except.noConfusion hdv
          · rename_i v ts₃ hv
            cases hdv
            simpa [Param.defaultValue, noStmtOD] using ih.pExpr _ _ _ _ _ hv
        · cases hdv
          rfl
  · exact Except.noConfusion h

theorem cleanStep_pCArgs (fuel : Nat) (ih : CleanAll fuel) :
    ∀ L ts args rest,
      parseFunctionCallArgs (fuel + 1) L ts = .ok (args, rest) →
      noStmtArgs args = true := by
  intro L ts args rest h
  unfold parseFunctionCallArgs at h
  exact ih.pCALoop _ _ _ _ _ _ _ h rfl rfl

theorem cleanStep_pCALoop (fuel : Nat) (ih : CleanAll fuel) :
    ∀ L pos kw inKw ts args rest,
      callArgsLoop (fuel + 1) L pos kw inKw ts = .ok (args, rest) →
      noStmtL pos = true → noStmtKV kw = true → noStmtArgs args = true := by
  intro L pos kw inKw ts args rest h hpos hkw
  simp only [callArgsLoop] at h
  split at h
  · cases h
    simp [noStmtArgs, hpos, hkw]
  · split at h
    · exact ih.pCALoop _ _ _ _ _ _ _ h hpos hkw
    · split at h
      · split at h
        · split at h
          · split at h
            · exact Except.noConfusion h
            · rename_i v ts₂ hv
              have hkw₁ : noStmtKV (insertKV kw (cur ts).value v) = true :=
                noStmtKV_insertKV _ _ _ hkw (ih.pExpr _ _ _ _ _ hv)
              split at h
              · exact ih.pCALoop _ _ _ _ _ _ _ h hpos hkw₁
              · split at h
                · cases h
                  simp [noStmtArgs, hpos, hkw₁]
                · exact ih.pCALoop _ _ _ _ _ _ _ h hpos hkw₁
          · have hkw₁ : noStmtKV
                (insertKV kw (cur ts).value (.userIdentifier (cur ts).value)) = true :=
              noStmtKV_insertKV _ _ _ hkw rfl
            split at h
            · exact ih.pCALoop _ _ _ _ _ _ _ h hpos hkw₁
            · split at h
              · cases h
                simp [noStmtArgs, hpos, hkw₁]
              · exact ih.pCALoop _ _ _ _ _ _ _ h hpos hkw₁
        · exact Except.noConfusion h
      · split at h
        · exact Except.noConfusion h
        · rename_i a ts₁ ha
          have hpos₁ : noStmtL (pos ++ [a]) = true := by
            rw [noStmtL_append, hpos]
            simp [noStmtL, ih.pExpr _ _ _ _ _ ha]
          split at h
          · exact ih.pCALoop _ _ _ _ _ _ _ h hpos₁ hkw
          · split at h
            · cases h
              simp [noStmtArgs, hpos₁, hkw]
            · exact ih.pCALoop _ _ _ _ _ _ _ h hpos₁ hkw

theorem cleanStep_pPLoop (fuel : Nat) (ih : CleanAll fuel) :
    ∀ L pos kw conds inKw ts ps rest,
      paramLoop (fuel + 1) L pos kw conds inKw ts = .ok (ps, rest) →
      noStmtPL pos = true → noStmtPL kw = true → noStmtL conds = true →
      noStmtP ps = true := by
  intro L pos kw conds inKw ts ps rest h hpos hkw hconds
  simp only [paramLoop] at h
  split at h
  · cases h
    simp [noStmtP, noStmtKV, hpos, hkw, hconds]
  · split at h
    · exact ih.pPLoop _ _ _ _ _ _ _ _ h hpos hkw hconds
    · split at h
      · exact Except.noConfusion h
      · rename_i param ts₁ hparam
        have hpd : noStmtOD (Param.defaultValue param) = true :=
          ih.pFP _ _ _ _ _ hparam
        have hsingle : noStmtPL [param] = true := by
          cases param with
          | mk nm dv =>
            simpa [noStmtPL, Param.defaultValue] using hpd
        have hpos₁ : noStmtPL (if inKw then pos else pos ++ [param]) = true := by
          split
          · exact hpos
          · rw [noStmtPL_append, hpos]
            simpa using hsingle
        have hkw₁ : noStmtPL (if inKw then kw ++ [param] else kw) = true := by
          split
          · rw [noStmtPL_append, hkw]
            simpa using hsingle
          · exact hkw
        split at h
        · exact Except.noConfusion h
        · rename_i conds₁ ts₂ hcond
          have hconds₁ : noStmtL conds₁ = true := by
            split at hcond
            · split at hcond
              · exact Except.noConfusion hcond
              · rename_i c ts₃ hc
                cases hcond
                rw [noStmtL_append, hconds]
                simp [noStmtL, ih.pExpr _ _ _ _ _ hc]
            · cases hcond
              exact hconds
          split at h
          · exact ih.pPLoop _ _ _ _ _ _ _ _ h hpos₁ hkw₁ hconds₁
          · split at h
            · cases h
              simp [noStmtP, noStmtKV, hpos₁, hkw₁, hconds₁]
            · exact ih.pPLoop _ _ _ _ _ _ _ _ h hpos₁ hkw₁ hconds₁

theorem cleanAll : ∀ fuel, CleanAll fuel := by
  intro fuel
  induction fuel with
  | zero => exact cleanAll_zero
  | succ fuel ih =>
    exact ⟨cleanStep_pExpr fuel ih, cleanStep_pLoop fuel ih, cleanStep_pPre fuel ih,
      cleanStep_pInf fuel ih, cleanStep_pGroup fuel ih, cleanStep_pTupEls fuel ih,
      cleanStep_pTupLoop fuel ih, cleanStep_pArr fuel ih, cleanStep_pMatArr fuel ih,
      cleanStep_pArrTop fuel ih, cleanStep_pArrLoop fuel ih, cleanStep_pBrace fuel ih,
      cleanStep_pBraceTop fuel ih, cleanStep_pBraceLoop fuel ih, cleanStep_pCode fuel ih,
      cleanStep_pCodeLoop fuel ih, cleanStep_pUn fuel ih, cleanStep_pDeriv fuel ih,
      cleanStep_pInt fuel ih, cleanStep_pCalc fuel ih, cleanStep_pCalcLoop fuel ih,
      cleanStep_pFPs fuel ih, cleanStep_pPLoop fuel ih, cleanStep_pFP fuel ih,
      cleanStep_pCArgs fuel ih, cleanStep_pCALoop fuel ih⟩


theorem topClean_of_noStmt (n : Node) (h : noStmt n = true) : topClean n = true := by
  unfold topClean
  split
  · rename_i e
    simp [noStmt] at h
  · exact h

theorem noStmtL_mem : ∀ l : List Node, noStmtL l = true → ∀ n ∈ l, noStmt n = true := by
  intro l
  induction l with
  | nil => intro _ n hn; simp at hn
  | cons a l ih =>
    intro h n hn
    simp only [noStmtL, Bool.and_eq_true] at h
    rcases List.mem_cons.mp hn with hn | hn
    · rw [hn]; exact h.1
    · exact ih h.2 n hn

theorem parseStatement_clean (fuel : Nat) (L : Lookup) (ts : List Token)
    (s : Node) (ts₁ : List Token)
    (h : parseStatement fuel L ts = .ok (some s, ts₁)) : topClean s = true := by
  simp only [parseStatement] at h
  split at h
  · simp at h
  · split at h
    · cases h
      rfl
    · split at h
      · exact Except.noConfusion h
      · rename_i e ts₂ he
        have hne : noStmt e = true := (cleanAll fuel).pExpr _ _ _ _ _ he
        split at h
        · cases h
          exact hne
        · cases h
          exact topClean_of_noStmt _ hne

theorem progLoop_clean : ∀ fuel L acc ts ns,
    progLoop fuel L acc ts = .ok ns →
    (∀ n ∈ acc, topClean n = true) → ∀ n ∈ ns, topClean n = true := by
  intro fuel
  induction fuel with
  | zero =>
    intro L acc ts ns h
    simp [progLoop, fuelMsg] at h
  | succ fuel ih =>
    intro L acc ts ns h hacc
    simp only [progLoop] at h
    split at h
    · cases h
      exact hacc
    · split at h
      · refine ih _ _ _ _ h ?_
        intro n hn
        rcases List.mem_append.mp hn with hn | hn
        · exact hacc n hn
        · rw [List.mem_singleton.mp hn]
          rfl
      · split at h
        · exact Except.noConfusion h
        · rename_i s ts₂ hs
          refine ih _ _ _ _ h ?_
          intro n hn
          rcases List.mem_append.mp hn with hn | hn
          · exact hacc n hn
          · rw [List.mem_singleton.mp hn]
            exact parseStatement_clean fuel L _ s ts₂ hs
        · exact ih _ _ _ _ h hacc

/-- C10 (confirmed): parseExpression never returns a tree containing a
Statement node, so the statements stored inside a CodeBlock are bare
expressions; Statement wrappers are built only by the top-level statement
loop (when an expression is followed by `;`), so in every successful
parseProgram run each top-level result is either a Statement whose body is
Statement-free or a Statement-free node, and no Statement appears below top
level. -/
theorem c10_no_statement_below_top :
    (∀ fuel L minPrec ts n rest,
      parseExpression fuel L minPrec ts = .ok (n, rest) → noStmt n = true) ∧
    (∀ fuel L ts stmts rest,
      parseCodeBlock fuel L ts = .ok (.codeBlock stmts, rest) →
      ∀ s ∈ stmts, noStmt s = true) ∧
    (∀ fuel L ts ns, parseProgram fuel L ts = .ok ns →
      ∀ n ∈ ns, topClean n = true) := by
  refine ⟨?_, ?_, ?_⟩
  · intro fuel L minPrec ts n rest h
    exact (cleanAll fuel).pExpr _ _ _ _ _ h
  · intro fuel L ts stmts rest h
    have : noStmt (.codeBlock stmts) = true := (cleanAll fuel).pCode _ _ _ _ h
    exact noStmtL_mem stmts (by simpa [noStmt] using this)
  · intro fuel L ts ns h
    exact progLoop_clean fuel L [] ts ns h (by intro n hn; simp at hn)

/-- Closed instance of C10: parsing `{{a; b}};` yields one top-level
Statement whose CodeBlock holds the two bare identifiers, and parsing the
code block alone yields Statement-free statements. -/
theorem c10_witness :
    (∀ n ∈ [Node.statement (.codeBlock [.userIdentifier "a", .userIdentifier "b"])],
      topClean n = true) ∧
    ∀ s ∈ [Node.userIdentifier "a", Node.userIdentifier "b"], noStmt s = true :=
  ⟨c10_no_statement_below_top.2.2 30 defLookup
     [symT "\x7b\x7b", idUT "a", symT ";", idUT "b", symT "\x7d\x7d", symT ";"]
     [Node.statement (.codeBlock [.userIdentifier "a", .userIdentifier "b"])] rfl,
   c10_no_statement_below_top.2.1 30 defLookup
     [symT "\x7b\x7b", idUT "a", symT ";", idUT "b", symT "\x7d\x7d"]
     [Node.userIdentifier "a", Node.userIdentifier "b"] [] rfl⟩

end RiX
